import Mathlib

/-!
# HRMS Lite frontend: page controllers as state transformers

The page controllers of `src/pages/Dashboard.jsx`, `src/pages/Employees.jsx` and
`src/pages/Attendance.jsx`, the API client of `src/services/api.js` and the modal of
`src/components/Modal.jsx` are embedded as pure functions on the component state.  An event handler takes
the state of the render in which it was created, together with the outcome
(resolved or rejected) of every request it may issue, and returns the state
after all its promises have settled and the ordered list of observable effects
(API calls and toast notifications).

JavaScript strings are Lean strings; `trim` and the regular-expression test act
on their character lists.  A character outside the basic plane is two UTF-16
code units in JavaScript, neither of them whitespace nor an ASCII symbol, so the
character classes used here accept it in both readings.
-/

namespace HRMS

/-! ## JavaScript built-ins used by the pages -/

/-- ECMAScript `WhiteSpace` and `LineTerminator` code points: the set removed by
`String.prototype.trim` and matched by the class escape `\s`. -/
def isJsWhitespace (c : Char) : Bool :=
  let n := c.toNat
  n == 0x09 || n == 0x0A || n == 0x0B || n == 0x0C || n == 0x0D || n == 0x20 ||
  n == 0xA0 || n == 0x1680 || (0x2000 ≤ n && n ≤ 0x200A) || n == 0x2028 ||
  n == 0x2029 || n == 0x202F || n == 0x205F || n == 0x3000 || n == 0xFEFF

/-- The list form of `String.prototype.trim`: whitespace is dropped from both ends. -/
def trimChars (l : List Char) : List Char :=
  ((l.dropWhile isJsWhitespace).reverse.dropWhile isJsWhitespace).reverse

/-- `String.prototype.trim`. -/
def trim (s : String) : String := ⟨trimChars s.data⟩

/-- JavaScript truthiness of a string: only the empty string is falsy. -/
def truthy (s : String) : Bool := !s.data.isEmpty

/-- Regular expressions over characters, with character classes as predicates. -/
inductive Regex where
  | nothing : Regex
  | eps : Regex
  | cls (p : Char → Bool) : Regex
  | seq (a b : Regex) : Regex
  | alt (a b : Regex) : Regex
  | star (a : Regex) : Regex

namespace Regex

/-- One or more repetitions, the quantifier `+`. -/
def plus (r : Regex) : Regex := seq r (star r)

/-- A literal character. -/
def chr (c : Char) : Regex := cls (fun d => d == c)

/-- Whether the expression accepts the empty string. -/
def nullable : Regex → Bool
  | nothing => false
  | eps => true
  | cls _ => false
  | seq a b => nullable a && nullable b
  | alt a b => nullable a || nullable b
  | star _ => true

/-- Brzozowski derivative with respect to one character. -/
def deriv : Regex → Char → Regex
  | nothing, _ => nothing
  | eps, _ => nothing
  | cls p, c => if p c then eps else nothing
  | seq a b, c =>
    if nullable a then alt (seq (deriv a c) b) (deriv b c) else seq (deriv a c) b
  | alt a b, c => alt (deriv a c) (deriv b c)
  | star a, c => seq (deriv a c) (star a)

/-- Whole-input match, the meaning of a pattern anchored by `^` and `$`. -/
def fullMatch : Regex → List Char → Bool
  | r, [] => nullable r
  | r, c :: cs => fullMatch (deriv r c) cs

end Regex

/-- The class `[^\s@]`. -/
def notSpaceOrAt (c : Char) : Bool := !(isJsWhitespace c || c == '@')

/-- The pattern `^[^\s@]+@[^\s@]+\.[^\s@]+$` of `Employees.validateForm`. -/
def emailRegex : Regex :=
  .seq (.plus (.cls notSpaceOrAt))
    (.seq (.chr '@')
      (.seq (.plus (.cls notSpaceOrAt))
        (.seq (.chr '.') (.plus (.cls notSpaceOrAt)))))

/-- The call `/^[^\s@]+@[^\s@]+\.[^\s@]+$/.test(s)`. -/
def emailRegexTest (s : String) : Bool := emailRegex.fullMatch s.data

/-- A plain object used as a string-keyed map, in insertion order. -/
abbrev JsObject := List (String × String)

/-- Property assignment `obj[k] = v`. -/
def JsObject.assign : JsObject → String → String → JsObject
  | [], k, v => [(k, v)]
  | (k0, v0) :: rest, k, v =>
    if k0 = k then (k0, v) :: rest else (k0, v0) :: JsObject.assign rest k v

/-- The call `Object.keys(obj)`. -/
def JsObject.keys (o : JsObject) : List String := o.map Prod.fst

/-- Property read `obj[k]`, `none` standing for `undefined`. -/
def JsObject.get (o : JsObject) (k : String) : Option String :=
  (o.find? (fun p => p.1 == k)).map Prod.snd

/-! ## Transport records and the API client (`src/services/api.js`) -/

/-- An employee as exchanged with the backend; also the shape of the add form. -/
structure Employee where
  employee_id : String
  full_name : String
  email : String
  department : String
  deriving DecidableEq, Repr

/-- One attendance record of the backend. -/
structure AttendanceRecord where
  id : Nat
  employee_id : String
  date : String
  status : String
  deriving DecidableEq, Repr

/-- Per-employee aggregate counts. -/
structure AttendanceSummary where
  total_records : Nat
  present_days : Nat
  absent_days : Nat
  deriving DecidableEq, Repr

/-- The body of a mark-attendance request. -/
structure MarkData where
  date : String
  status : String
  deriving DecidableEq, Repr

/-- A call of one function of the API client, with its arguments. -/
inductive ApiCall where
  | employeeGetAll : ApiCall
  | employeeGetById (id : String) : ApiCall
  | employeeCreate (data : Employee) : ApiCall
  | employeeDelete (id : String) : ApiCall
  | attendanceGetByEmployee (employeeId : String) (params : JsObject) : ApiCall
  | attendanceMark (employeeId : String) (data : MarkData) : ApiCall
  | attendanceGetSummary (employeeId : String) : ApiCall
  | dashboardGetSummary : ApiCall
  deriving DecidableEq, Repr

/-- What a handler does that is visible outside the component state. -/
inductive Effect where
  | call (c : ApiCall) : Effect
  | toastSuccess (msg : String) : Effect
  | toastError (msg : String) : Effect
  deriving DecidableEq, Repr

/-- The rejection value of a request; `detail` is `err.response?.data?.detail`. -/
structure ApiError where
  detail : Option String
  deriving DecidableEq, Repr

/-- How the promise of a request settles. -/
inductive Outcome (α : Type) where
  | resolved (data : α) : Outcome α
  | rejected (err : ApiError) : Outcome α
  deriving DecidableEq, Repr

/-- The expression `err.response?.data?.detail || fallback`. -/
def detailOr (err : ApiError) (fallback : String) : String :=
  match err.detail with
  | some d => if truthy d then d else fallback
  | none => fallback

/-- Whether an effect is an API call. -/
def Effect.isCall : Effect → Bool
  | .call _ => true
  | _ => false

/-- The API calls of a trace, in order. -/
def callsOf : List Effect → List ApiCall
  | [] => []
  | .call c :: rest => c :: callsOf rest
  | _ :: rest => callsOf rest

/-- The error notifications of a trace, in order. -/
def errorToastsOf : List Effect → List String
  | [] => []
  | .toastError m :: rest => m :: errorToastsOf rest
  | _ :: rest => errorToastsOf rest

/-- Whether a call is `employeeAPI.create`. -/
def ApiCall.isCreate : ApiCall → Bool
  | .employeeCreate _ => true
  | _ => false

/-- Whether a call is `employeeAPI.delete`. -/
def ApiCall.isDelete : ApiCall → Bool
  | .employeeDelete _ => true
  | _ => false

/-- Whether a call is `employeeAPI.getAll`. -/
def ApiCall.isGetAll : ApiCall → Bool
  | .employeeGetAll => true
  | _ => false

/-- Whether a call is `attendanceAPI.getByEmployee`. -/
def ApiCall.isRecords : ApiCall → Bool
  | .attendanceGetByEmployee _ _ => true
  | _ => false

/-- Whether a call is `attendanceAPI.getSummary`. -/
def ApiCall.isSummary : ApiCall → Bool
  | .attendanceGetSummary _ => true
  | _ => false

/-! ## The Employees page (`src/pages/Employees.jsx`) -/

namespace Employees

/-- The `useState` cells of the component. -/
structure State where
  employees : List Employee
  loading : Bool
  error : Option String
  showAddModal : Bool
  deleteTarget : Option Employee
  deleting : Bool
  form : Employee
  formErrors : JsObject
  submitting : Bool
  deriving DecidableEq, Repr

/-- The state of the first render. -/
def State.initial : State :=
  { employees := [], loading := true, error := none, showAddModal := false,
    deleteTarget := none, deleting := false,
    form := { employee_id := "", full_name := "", email := "", department := "" },
    formErrors := [], submitting := false }

/-- The function `fetchEmployees`, given the outcome of `employeeAPI.getAll()`. -/
def fetchEmployees (s : State) (res : Outcome (List Employee)) : State × List Effect :=
  let s1 := { s with loading := true, error := none }
  let s2 :=
    match res with
    | .resolved data => { s1 with employees := data }
    | .rejected err => { s1 with error := some (detailOr err "Failed to load employees") }
  ({ s2 with loading := false }, [.call .employeeGetAll])

/-- The error object built by `validateForm` from the form values. -/
def validationErrors (form : Employee) : JsObject :=
  let errors : JsObject := []
  let errors :=
    if !truthy (trim form.employee_id) then errors.assign "employee_id" "Employee ID is required"
    else errors
  let errors :=
    if !truthy (trim form.full_name) then errors.assign "full_name" "Full name is required"
    else errors
  let errors :=
    if !truthy (trim form.email) then errors.assign "email" "Email is required"
    else if !emailRegexTest form.email then errors.assign "email" "Enter a valid email address"
    else errors
  let errors :=
    if !truthy (trim form.department) then errors.assign "department" "Department is required"
    else errors
  errors

/-- The function `validateForm`: stores the error object and reports whether it is empty. -/
def validateForm (s : State) : State × Bool :=
  let errors := validationErrors s.form
  ({ s with formErrors := errors }, errors.keys.length == 0)

/-- The function `resetForm`. -/
def resetForm (s : State) : State :=
  { s with form := { employee_id := "", full_name := "", email := "", department := "" },
           formErrors := [] }

/-- The function `handleOpenAdd`. -/
def handleOpenAdd (s : State) : State :=
  { resetForm s with showAddModal := true }

/-- The function `handleSubmit`, given the outcomes of `employeeAPI.create(form)` and of
the list fetch started after a successful create. -/
def handleSubmit (s : State) (createRes : Outcome Unit) (listRes : Outcome (List Employee)) :
    State × List Effect :=
  let (s1, ok) := validateForm s
  if !ok then (s1, [])
  else
    let s2 := { s1 with submitting := true }
    let create : Effect := .call (.employeeCreate s.form)
    match createRes with
    | .resolved _ =>
      let s3 := resetForm { s2 with showAddModal := false }
      let (s4, fetched) := fetchEmployees s3 listRes
      ({ s4 with submitting := false },
        [create, .toastSuccess "Employee added successfully"] ++ fetched)
    | .rejected err =>
      ({ s2 with submitting := false },
        [create, .toastError (detailOr err "Failed to add employee")])

/-- The row control `onClick={() => setDeleteTarget(emp)}`. -/
def clickDelete (s : State) (emp : Employee) : State × List Effect :=
  ({ s with deleteTarget := some emp }, [])

/-- The dialog's `onClose={() => setDeleteTarget(null)}`. -/
def cancelDelete (s : State) : State × List Effect :=
  ({ s with deleteTarget := none }, [])

/-- The function `handleDelete`, the dialog's confirm action, given the outcomes of
`employeeAPI.delete(id)` and of the list fetch started after a successful delete. -/
def handleDelete (s : State) (deleteRes : Outcome Unit) (listRes : Outcome (List Employee)) :
    State × List Effect :=
  match s.deleteTarget with
  | none => (s, [])
  | some target =>
    let s1 := { s with deleting := true }
    let del : Effect := .call (.employeeDelete target.employee_id)
    match deleteRes with
    | .resolved _ =>
      let s2 := { s1 with deleteTarget := none }
      let (s3, fetched) := fetchEmployees s2 listRes
      ({ s3 with deleting := false }, [del, .toastSuccess "Employee deleted"] ++ fetched)
    | .rejected err =>
      ({ s1 with deleting := false },
        [del, .toastError (detailOr err "Failed to delete employee")])

/-- The field edits `onChange={(e) => setForm({ ...form, field: e.target.value })}`. -/
inductive Field where
  | employee_id
  | full_name
  | email
  | department
  deriving DecidableEq, Repr

/-- The property name of a form field. -/
def Field.key : Field → String
  | .employee_id => "employee_id"
  | .full_name => "full_name"
  | .email => "email"
  | .department => "department"

/-- Editing one form input. -/
def setField (s : State) (f : Field) (v : String) : State :=
  match f with
  | .employee_id => { s with form := { s.form with employee_id := v } }
  | .full_name => { s with form := { s.form with full_name := v } }
  | .email => { s with form := { s.form with email := v } }
  | .department => { s with form := { s.form with department := v } }

end Employees

/-! ## The Attendance page (`src/pages/Attendance.jsx`) -/

namespace Attendance

/-- The mark-attendance form. -/
structure MarkForm where
  employee_id : String
  date : String
  status : String
  deriving DecidableEq, Repr

/-- The `useState` cells of the component. -/
structure State where
  employees : List Employee
  selectedEmployee : String
  records : List AttendanceRecord
  summary : Option AttendanceSummary
  loading : Bool
  recordsLoading : Bool
  error : Option String
  showMarkModal : Bool
  dateFrom : String
  dateTo : String
  markForm : MarkForm
  formErrors : JsObject
  submitting : Bool
  deriving DecidableEq, Repr

/-- The state of the first render; `today` is `new Date().toISOString().split('T')[0]`. -/
def State.initial (today : String) : State :=
  { employees := [], selectedEmployee := "", records := [], summary := none,
    loading := true, recordsLoading := false, error := none, showMarkModal := false,
    dateFrom := "", dateTo := "",
    markForm := { employee_id := "", date := today, status := "Present" },
    formErrors := [], submitting := false }

/-- The function `fetchEmployees`, given the outcome of `employeeAPI.getAll()`. -/
def fetchEmployees (s : State) (res : Outcome (List Employee)) : State × List Effect :=
  let s1 := { s with loading := true, error := none }
  let s2 :=
    match res with
    | .resolved data => { s1 with employees := data }
    | .rejected err => { s1 with error := some (detailOr err "Failed to load employees") }
  ({ s2 with loading := false }, [.call .employeeGetAll])

/-- The `params` object built by `fetchRecords` from its two date arguments. -/
def rangeParams (fromDate toDate : String) : JsObject :=
  let params : JsObject := []
  let params := if truthy fromDate then params.assign "date_from" fromDate else params
  let params := if truthy toDate then params.assign "date_to" toDate else params
  params

/-- The function `fetchRecords(empId, from, to)`, given the outcomes of the records
request and of the summary request, which are awaited jointly by `Promise.all`. -/
def fetchRecords (s : State) (empId fromDate toDate : String)
    (recordsRes : Outcome (List AttendanceRecord)) (summaryRes : Outcome AttendanceSummary) :
    State × List Effect :=
  if !truthy empId then ({ s with records := [], summary := none }, [])
  else
    let s1 := { s with recordsLoading := true }
    let issued : List Effect :=
      [.call (.attendanceGetByEmployee empId (rangeParams fromDate toDate)),
       .call (.attendanceGetSummary empId)]
    match recordsRes, summaryRes with
    | .resolved recs, .resolved summ =>
      ({ s1 with records := recs, summary := some summ, recordsLoading := false }, issued)
    | _, _ =>
      ({ s1 with recordsLoading := false },
        issued ++ [.toastError "Failed to load attendance records"])

/-- The function `handleEmployeeChange(empId)`. -/
def handleEmployeeChange (s : State) (empId : String)
    (recordsRes : Outcome (List AttendanceRecord)) (summaryRes : Outcome AttendanceSummary) :
    State × List Effect :=
  let s1 := { s with selectedEmployee := empId, dateFrom := "", dateTo := "" }
  fetchRecords s1 empId "" "" recordsRes summaryRes

/-- The function `handleFilter`, the apply-filter action. -/
def handleFilter (s : State)
    (recordsRes : Outcome (List AttendanceRecord)) (summaryRes : Outcome AttendanceSummary) :
    State × List Effect :=
  if truthy s.selectedEmployee then
    fetchRecords s s.selectedEmployee s.dateFrom s.dateTo recordsRes summaryRes
  else (s, [])

/-- The function `handleClearFilter`. -/
def handleClearFilter (s : State)
    (recordsRes : Outcome (List AttendanceRecord)) (summaryRes : Outcome AttendanceSummary) :
    State × List Effect :=
  let s1 := { s with dateFrom := "", dateTo := "" }
  if truthy s.selectedEmployee then
    fetchRecords s1 s.selectedEmployee "" "" recordsRes summaryRes
  else (s1, [])

/-- The date inputs `onChange={(e) => setDateFrom(e.target.value)}`. -/
def setDateFrom (s : State) (v : String) : State := { s with dateFrom := v }

/-- The date inputs `onChange={(e) => setDateTo(e.target.value)}`. -/
def setDateTo (s : State) (v : String) : State := { s with dateTo := v }

/-- Replacing the mark form, `setMarkForm(...)`. -/
def setMarkForm (s : State) (f : MarkForm) : State := { s with markForm := f }

/-- The error object built by `validateMarkForm` from the mark form. -/
def markValidationErrors (form : MarkForm) : JsObject :=
  let errors : JsObject := []
  let errors :=
    if !truthy form.employee_id then errors.assign "employee_id" "Select an employee" else errors
  let errors := if !truthy form.date then errors.assign "date" "Date is required" else errors
  let errors :=
    if !truthy form.status then errors.assign "status" "Status is required" else errors
  errors

/-- The function `validateMarkForm`. -/
def validateMarkForm (s : State) : State × Bool :=
  let errors := markValidationErrors s.markForm
  ({ s with formErrors := errors }, errors.keys.length == 0)

/-- The function `handleMarkSubmit`, given the outcome of `attendanceAPI.mark` and the
outcomes of the two requests of the refresh started after a successful mark. -/
def handleMarkSubmit (s : State) (markRes : Outcome Unit)
    (recordsRes : Outcome (List AttendanceRecord)) (summaryRes : Outcome AttendanceSummary) :
    State × List Effect :=
  let (s1, ok) := validateMarkForm s
  if !ok then (s1, [])
  else
    let s2 := { s1 with submitting := true }
    let mark : Effect :=
      .call (.attendanceMark s.markForm.employee_id
        { date := s.markForm.date, status := s.markForm.status })
    match markRes with
    | .resolved _ =>
      let s3 := { s2 with showMarkModal := false }
      let (s4, refreshed) :=
        if s.selectedEmployee = s.markForm.employee_id then
          fetchRecords s3 s.selectedEmployee s.dateFrom s.dateTo recordsRes summaryRes
        else (s3, [])
      ({ s4 with submitting := false },
        [mark, .toastSuccess "Attendance marked successfully"] ++ refreshed)
    | .rejected err =>
      ({ s2 with submitting := false },
        [mark, .toastError (detailOr err "Failed to mark attendance")])

/-- The function `openMarkModal`; `today` is the current date in ISO form. -/
def openMarkModal (s : State) (today : String) : State :=
  { s with markForm := { employee_id := s.selectedEmployee, date := today, status := "Present" },
           formErrors := [], showMarkModal := true }

/-- What the records region of the page shows. -/
inductive RecordsView where
  | selectPrompt : RecordsView
  | skeleton : RecordsView
  | noRecords : RecordsView
  | table (rows : List AttendanceRecord) : RecordsView
  deriving DecidableEq, Repr

/-- What the component returns. -/
inductive View where
  | loading : View
  | error (message : String) : View
  | noEmployees : View
  | content (summaryCards : Option AttendanceSummary) (recordsView : RecordsView) : View
  deriving DecidableEq, Repr

/-- The summary cards, rendered under `selectedEmployee && summary`. -/
def summaryCards (s : State) : Option AttendanceSummary :=
  if truthy s.selectedEmployee then s.summary else none

/-- The records region: prompt, skeleton, empty state or table. -/
def recordsView (s : State) : RecordsView :=
  if !truthy s.selectedEmployee then .selectPrompt
  else if s.recordsLoading then .skeleton
  else if s.records.length == 0 then .noRecords
  else .table s.records

/-- The page body returned once the page is neither loading nor in error. -/
def body (s : State) : View :=
  if s.employees.length == 0 then .noEmployees
  else .content (summaryCards s) (recordsView s)

/-- The render function of the component: `if (loading)`, `if (error)`, then the body. -/
def render (s : State) : View :=
  if s.loading then .loading
  else
    match s.error with
    | some msg => if truthy msg then .error msg else body s
    | none => body s

end Attendance

/-! ## Notions used to state the properties -/

/-- The language of a regular expression, independently of the matcher. -/
inductive Regex.Matches : Regex → List Char → Prop
  | eps : Regex.Matches .eps []
  | cls (p : Char → Bool) (c : Char) (h : p c = true) : Regex.Matches (.cls p) [c]
  | seq {a b : Regex} {s t : List Char} (ha : Regex.Matches a s) (hb : Regex.Matches b t) :
      Regex.Matches (.seq a b) (s ++ t)
  | altL {a : Regex} (b : Regex) {s : List Char} (ha : Regex.Matches a s) :
      Regex.Matches (.alt a b) s
  | altR (a : Regex) {b : Regex} {s : List Char} (hb : Regex.Matches b s) :
      Regex.Matches (.alt a b) s
  | starNil (a : Regex) : Regex.Matches (.star a) []
  | starCons {a : Regex} {s t : List Char} (ha : Regex.Matches a s)
      (ht : Regex.Matches (.star a) t) : Regex.Matches (.star a) (s ++ t)

/-- A string is blank when it is empty or consists of whitespace only. -/
def isBlank (s : String) : Bool := s.data.all isJsWhitespace

/-- A string has the shape `local@domain.tld` of the pattern: three non-empty runs of
characters that are neither whitespace nor `@`, separated by `@` and by `.`. -/
def EmailShape (l : List Char) : Prop :=
  ∃ a b c : List Char, l = a ++ '@' :: (b ++ '.' :: c) ∧
    a ≠ [] ∧ b ≠ [] ∧ c ≠ [] ∧
    (∀ x ∈ a, notSpaceOrAt x = true) ∧ (∀ x ∈ b, notSpaceOrAt x = true) ∧
    (∀ x ∈ c, notSpaceOrAt x = true)

namespace Employees

/-- The four fields of the add form, in the order in which they are validated. -/
def allFields : List Field := [.employee_id, .full_name, .email, .department]

/-- A field offends when it is missing (blank) or, for the email, malformed. -/
def offends (form : Employee) : Field → Bool
  | .employee_id => isBlank form.employee_id
  | .full_name => isBlank form.full_name
  | .email => isBlank form.email || !emailRegexTest form.email
  | .department => isBlank form.department

/-- The offending fields of a form. -/
def offendingFields (form : Employee) : List Field := allFields.filter (offends form)

end Employees

namespace Employees

/-- The user actions of the Employees page, each carrying the outcomes of the requests
it may issue. -/
inductive Action where
  | mount (listRes : Outcome (List Employee)) : Action
  | retry (listRes : Outcome (List Employee)) : Action
  | openAdd : Action
  | closeAdd : Action
  | edit (f : Field) (v : String) : Action
  | submit (createRes : Outcome Unit) (listRes : Outcome (List Employee)) : Action
  | clickDelete (emp : Employee) : Action
  | cancelDelete : Action
  | confirmDelete (deleteRes : Outcome Unit) (listRes : Outcome (List Employee)) : Action

/-- Whether an action is the confirm action of the delete dialog. -/
def Action.isConfirm : Action → Bool
  | .confirmDelete _ _ => true
  | _ => false

/-- One user action applied to the page. -/
def step (s : State) : Action → State × List Effect
  | .mount listRes => fetchEmployees s listRes
  | .retry listRes => fetchEmployees s listRes
  | .openAdd => (handleOpenAdd s, [])
  | .closeAdd => ({ s with showAddModal := false }, [])
  | .edit f v => (setField s f v, [])
  | .submit createRes listRes => handleSubmit s createRes listRes
  | .clickDelete emp => clickDelete s emp
  | .cancelDelete => cancelDelete s
  | .confirmDelete deleteRes listRes => handleDelete s deleteRes listRes

/-- A sequence of user actions, with the concatenated trace. -/
def run (s : State) : List Action → State × List Effect
  | [] => (s, [])
  | a :: rest =>
    let (s1, t1) := step s a
    let (s2, t2) := run s1 rest
    (s2, t1 ++ t2)

/-- The delete calls of a trace. -/
def deleteCalls (t : List Effect) : List ApiCall := (callsOf t).filter ApiCall.isDelete

/-- The create calls of a trace. -/
def createCalls (t : List Effect) : List ApiCall := (callsOf t).filter ApiCall.isCreate

/-- A sample employee. -/
def jane : Employee :=
  { employee_id := "EMP001", full_name := "Jane Doe", email := "jane@co.com",
    department := "Engineering" }

/-- The page after a successful mount with one employee, the add modal open. -/
def sampleState (form : Employee) : State :=
  { State.initial with employees := [jane], loading := false, showAddModal := true, form := form }

/-- A form with an empty identifier and a malformed email. -/
def sampleInvalid : Employee :=
  { employee_id := "", full_name := "Jane Doe", email := "jane@co", department := "Engineering" }

/-- A form whose identifier is a single space; the other fields are well-formed. -/
def sampleSpaceId : Employee :=
  { employee_id := " ", full_name := "Jane Doe", email := "jane@co.com",
    department := "Engineering" }

end Employees

namespace Attendance

/-- The records requests of a trace. -/
def recordsCalls (t : List Effect) : List ApiCall := (callsOf t).filter ApiCall.isRecords

/-- The summary requests of a trace. -/
def summaryCalls (t : List Effect) : List ApiCall := (callsOf t).filter ApiCall.isSummary

/-- A second sample employee. -/
def john : Employee :=
  { employee_id := "EMP002", full_name := "John Smith", email := "john@co.com",
    department := "Sales" }

/-- A record of the first sample employee. -/
def janeRecord : AttendanceRecord :=
  { id := 1, employee_id := "EMP001", date := "2024-01-10", status := "Present" }

/-- The summary of the first sample employee. -/
def janeSummary : AttendanceSummary :=
  { total_records := 1, present_days := 1, absent_days := 0 }

/-- The summary of the second sample employee. -/
def johnSummary : AttendanceSummary :=
  { total_records := 0, present_days := 0, absent_days := 0 }

/-- The page after a successful mount with two employees, nobody selected. -/
def sampleMounted : State :=
  { State.initial "2024-01-10" with employees := [Employees.jane, john], loading := false }

/-- The page after the first sample employee was selected and both requests resolved. -/
def sampleSelected : State :=
  (handleEmployeeChange sampleMounted "EMP001" (.resolved [janeRecord])
    (.resolved janeSummary)).1

/-- The selected page with a date range typed into the two inputs, not yet applied. -/
def sampleRangeTyped : State :=
  setDateTo (setDateFrom sampleSelected "2024-02-01") "2024-02-29"

/-- The page with the range typed and the mark modal opened for the selected employee. -/
def sampleMarking : State := openMarkModal sampleRangeTyped "2024-01-11"

end Attendance

/-! ## The HTTP requests of the API client (`src/services/api.js`) -/

/-- The HTTP methods the client uses. -/
inductive Method where
  | GET
  | POST
  | DELETE
  deriving DecidableEq, Repr

/-- A JSON request body. -/
inductive Body where
  | employee (data : Employee) : Body
  | mark (data : MarkData) : Body
  deriving DecidableEq, Repr

/-- The configuration object given to `axios.create`. -/
structure ClientConfig where
  baseURL : String
  headers : JsObject
  timeout : Nat
  deriving DecidableEq, Repr

/-- A request handed to the HTTP library: the instance configuration together with the
method, the URL relative to the base path, the query parameters and the body. -/
structure HttpRequest where
  client : ClientConfig
  method : Method
  url : String
  params : Option JsObject
  data : Option Body
  deriving DecidableEq, Repr

/-- The instance `api = axios.create(...)`. -/
def api : ClientConfig :=
  { baseURL := "/api", headers := [("Content-Type", "application/json")], timeout := 10000 }

/-- The call `client.get(url, { params })`; `none` stands for a call without a config. -/
def ClientConfig.get (c : ClientConfig) (url : String) (params : Option JsObject) :
    HttpRequest :=
  { client := c, method := .GET, url := url, params := params, data := none }

/-- The call `client.post(url, data)`. -/
def ClientConfig.post (c : ClientConfig) (url : String) (data : Body) : HttpRequest :=
  { client := c, method := .POST, url := url, params := none, data := some data }

/-- The call `client.delete(url)`. -/
def ClientConfig.delete (c : ClientConfig) (url : String) : HttpRequest :=
  { client := c, method := .DELETE, url := url, params := none, data := none }

namespace employeeAPI

/-- The function `employeeAPI.getAll`. -/
def getAll : HttpRequest := api.get "/employees" none

/-- The function `employeeAPI.getById`. -/
def getById (id : String) : HttpRequest := api.get ("/employees/" ++ id) none

/-- The function `employeeAPI.create`. -/
def create (data : Employee) : HttpRequest := api.post "/employees" (.employee data)

/-- The function `employeeAPI.delete`. -/
def delete (id : String) : HttpRequest := api.delete ("/employees/" ++ id)

end employeeAPI

namespace attendanceAPI

/-- The function `attendanceAPI.getByEmployee`. -/
def getByEmployee (employeeId : String) (params : JsObject) : HttpRequest :=
  api.get ("/employees/" ++ employeeId ++ "/attendance") (some params)

/-- The function `attendanceAPI.mark`. -/
def mark (employeeId : String) (data : MarkData) : HttpRequest :=
  api.post ("/employees/" ++ employeeId ++ "/attendance") (.mark data)

/-- The function `attendanceAPI.getSummary`. -/
def getSummary (employeeId : String) : HttpRequest :=
  api.get ("/employees/" ++ employeeId ++ "/attendance/summary") none

end attendanceAPI

namespace dashboardAPI

/-- The function `dashboardAPI.getSummary`. -/
def getSummary : HttpRequest := api.get "/dashboard" none

end dashboardAPI

/-- The HTTP request behind a call of the API client. -/
def ApiCall.request : ApiCall → HttpRequest
  | .employeeGetAll => employeeAPI.getAll
  | .employeeGetById id => employeeAPI.getById id
  | .employeeCreate data => employeeAPI.create data
  | .employeeDelete id => employeeAPI.delete id
  | .attendanceGetByEmployee employeeId params => attendanceAPI.getByEmployee employeeId params
  | .attendanceMark employeeId data => attendanceAPI.mark employeeId data
  | .attendanceGetSummary employeeId => attendanceAPI.getSummary employeeId
  | .dashboardGetSummary => dashboardAPI.getSummary

/-- The HTTP requests of a trace, in order. -/
def requestsOf (t : List Effect) : List HttpRequest := (callsOf t).map ApiCall.request

/-- The success notifications of a trace, in order. -/
def successToastsOf : List Effect → List String
  | [] => []
  | .toastSuccess m :: rest => m :: successToastsOf rest
  | _ :: rest => successToastsOf rest

/-- Whether a call is `attendanceAPI.mark`. -/
def ApiCall.isMark : ApiCall → Bool
  | .attendanceMark _ _ => true
  | _ => false

/-! ## The Dashboard page (`src/pages/Dashboard.jsx`) -/

/-- The global aggregate of the backend; the department counts are the entries of the
name-to-count object in the order of `Object.entries`. -/
structure DashboardSummary where
  total_employees : Nat
  total_departments : Nat
  present_today : Nat
  absent_today : Nat
  recent_employees : List Employee
  department_counts : List (String × Nat)
  deriving DecidableEq, Repr

namespace Dashboard

/-- The `useState` cells of the component. -/
structure State where
  data : Option DashboardSummary
  loading : Bool
  error : Option String
  deriving DecidableEq, Repr

/-- The state of the first render. -/
def State.initial : State := { data := none, loading := true, error := none }

/-- The part of `fetchDashboard` that runs before the request settles. -/
def fetchDashboardStart (s : State) : State × List Effect :=
  ({ s with loading := true, error := none }, [.call .dashboardGetSummary])

/-- The part of `fetchDashboard` that runs once the request has settled. -/
def fetchDashboardSettle (s : State) (res : Outcome DashboardSummary) : State :=
  let s1 :=
    match res with
    | .resolved data => { s with data := some data }
    | .rejected err => { s with error := some (detailOr err "Failed to load dashboard data") }
  { s1 with loading := false }

/-- The function `fetchDashboard`, given the outcome of `dashboardAPI.getSummary()`. -/
def fetchDashboard (s : State) (res : Outcome DashboardSummary) : State × List Effect :=
  let (s1, issued) := fetchDashboardStart s
  (fetchDashboardSettle s1 res, issued)

/-- The expression `data?.field || 0` for a count. -/
def countOrZero (data : Option DashboardSummary) (field : DashboardSummary → Nat) : Nat :=
  match data with
  | some d => if field d != 0 then field d else 0
  | none => 0

/-- The array `stats`: the four labelled counts. -/
def stats (data : Option DashboardSummary) : List (String × Nat) :=
  [("Total Employees", countOrZero data (·.total_employees)),
   ("Departments", countOrZero data (·.total_departments)),
   ("Present Today", countOrZero data (·.present_today)),
   ("Absent Today", countOrZero data (·.absent_today))]

/-- A card body: a list of rows or a centred message. -/
inductive Card (α : Type) where
  | rows (items : List α) : Card α
  | message (text : String) : Card α
  deriving DecidableEq, Repr

/-- The recent-employees card, under `data?.recent_employees?.length > 0`. -/
def recentCard (data : Option DashboardSummary) : Card Employee :=
  match data with
  | some d =>
    if d.recent_employees.length > 0 then .rows d.recent_employees
    else .message "No employees added yet"
  | none => .message "No employees added yet"

/-- The department card, under
`data?.department_counts && Object.keys(data.department_counts).length > 0`. -/
def departmentCard (data : Option DashboardSummary) : Card (String × Nat) :=
  match data with
  | some d =>
    if (d.department_counts.map Prod.fst).length > 0 then .rows d.department_counts
    else .message "No departments yet"
  | none => .message "No departments yet"

/-- What the component returns. -/
inductive View where
  | loading : View
  | error (message : String) : View
  | content (stats : List (String × Nat)) (recent : Card Employee)
      (departments : Card (String × Nat)) : View
  deriving DecidableEq, Repr

/-- The page body returned once the page is neither loading nor in error. -/
def body (s : State) : View :=
  .content (stats s.data) (recentCard s.data) (departmentCard s.data)

/-- The render function of the component: `if (loading)`, `if (error)`, then the body. -/
def render (s : State) : View :=
  if s.loading then .loading
  else
    match s.error with
    | some msg => if truthy msg then .error msg else body s
    | none => body s

/-- The summary of a system without employees. -/
def emptySummary : DashboardSummary :=
  { total_employees := 0, total_departments := 0, present_today := 0, absent_today := 0,
    recent_employees := [], department_counts := [] }

end Dashboard

/-! ## Page views and the two halves of the primary fetches -/

/-- The three things a page controller can render. -/
inductive ViewKind where
  | skeleton
  | errorView
  | content
  deriving DecidableEq, Repr

/-- The kind of a Dashboard view. -/
def Dashboard.View.kind : Dashboard.View → ViewKind
  | .loading => .skeleton
  | .error _ => .errorView
  | .content _ _ _ => .content

/-- The kind of an Attendance view; the no-employees empty state is page content. -/
def Attendance.View.kind : Attendance.View → ViewKind
  | .loading => .skeleton
  | .error _ => .errorView
  | .noEmployees => .content
  | .content _ _ => .content

namespace Employees

/-- The list region of the page: the empty state or the table. -/
inductive ListView where
  | emptyState : ListView
  | table (rows : List Employee) : ListView
  deriving DecidableEq, Repr

/-- What the component returns; the content carries the list region and whether the add
modal and the delete confirmation are open. -/
inductive View where
  | loading : View
  | error (message : String) : View
  | content (list : ListView) (addModalOpen : Bool) (confirmOpen : Bool) : View
  deriving DecidableEq, Repr

/-- The kind of an Employees view. -/
def View.kind : View → ViewKind
  | .loading => .skeleton
  | .error _ => .errorView
  | .content _ _ _ => .content

/-- The page body returned once the page is neither loading nor in error. -/
def body (s : State) : View :=
  .content (if s.employees.length == 0 then .emptyState else .table s.employees)
    s.showAddModal s.deleteTarget.isSome

/-- The render function of the component: `if (loading)`, `if (error)`, then the body. -/
def render (s : State) : View :=
  if s.loading then .loading
  else
    match s.error with
    | some msg => if truthy msg then .error msg else body s
    | none => body s

/-- The part of `fetchEmployees` that runs before the request settles. -/
def fetchEmployeesStart (s : State) : State × List Effect :=
  ({ s with loading := true, error := none }, [.call .employeeGetAll])

/-- The part of `fetchEmployees` that runs once the request has settled. -/
def fetchEmployeesSettle (s : State) (res : Outcome (List Employee)) : State :=
  let s1 :=
    match res with
    | .resolved data => { s with employees := data }
    | .rejected err => { s with error := some (detailOr err "Failed to load employees") }
  { s1 with loading := false }

/-- The outcome of the list request an action carries, if it carries one. -/
def Action.listOutcome : Action → Option (Outcome (List Employee))
  | .mount listRes => some listRes
  | .retry listRes => some listRes
  | .submit _ listRes => some listRes
  | .confirmDelete _ listRes => some listRes
  | _ => none

end Employees

namespace Attendance

/-- The part of `fetchEmployees` that runs before the request settles. -/
def fetchEmployeesStart (s : State) : State × List Effect :=
  ({ s with loading := true, error := none }, [.call .employeeGetAll])

/-- The part of `fetchEmployees` that runs once the request has settled. -/
def fetchEmployeesSettle (s : State) (res : Outcome (List Employee)) : State :=
  let s1 :=
    match res with
    | .resolved data => { s with employees := data }
    | .rejected err => { s with error := some (detailOr err "Failed to load employees") }
  { s1 with loading := false }

/-- The user actions of the Attendance page, each carrying the outcomes of the requests
it may issue. -/
inductive Action where
  | mount (listRes : Outcome (List Employee)) : Action
  | retry (listRes : Outcome (List Employee)) : Action
  | selectEmployee (empId : String) (recordsRes : Outcome (List AttendanceRecord))
      (summaryRes : Outcome AttendanceSummary) : Action
  | typeDateFrom (v : String) : Action
  | typeDateTo (v : String) : Action
  | applyFilter (recordsRes : Outcome (List AttendanceRecord))
      (summaryRes : Outcome AttendanceSummary) : Action
  | clearFilter (recordsRes : Outcome (List AttendanceRecord))
      (summaryRes : Outcome AttendanceSummary) : Action
  | openMark (today : String) : Action
  | closeMark : Action
  | editMark (form : MarkForm) : Action
  | submitMark (markRes : Outcome Unit) (recordsRes : Outcome (List AttendanceRecord))
      (summaryRes : Outcome AttendanceSummary) : Action

/-- One user action applied to the page. -/
def step (s : State) : Action → State × List Effect
  | .mount listRes => fetchEmployees s listRes
  | .retry listRes => fetchEmployees s listRes
  | .selectEmployee empId recordsRes summaryRes =>
    handleEmployeeChange s empId recordsRes summaryRes
  | .typeDateFrom v => (setDateFrom s v, [])
  | .typeDateTo v => (setDateTo s v, [])
  | .applyFilter recordsRes summaryRes => handleFilter s recordsRes summaryRes
  | .clearFilter recordsRes summaryRes => handleClearFilter s recordsRes summaryRes
  | .openMark today => (openMarkModal s today, [])
  | .closeMark => ({ s with showMarkModal := false }, [])
  | .editMark form => (setMarkForm s form, [])
  | .submitMark markRes recordsRes summaryRes =>
    handleMarkSubmit s markRes recordsRes summaryRes

/-- A sequence of user actions, with the concatenated trace. -/
def run (s : State) : List Action → State × List Effect
  | [] => (s, [])
  | a :: rest =>
    let (s1, t1) := step s a
    let (s2, t2) := run s1 rest
    (s2, t1 ++ t2)

/-- The outcome of the list request an action carries, if it carries one. -/
def Action.listOutcome : Action → Option (Outcome (List Employee))
  | .mount listRes => some listRes
  | .retry listRes => some listRes
  | _ => none

/-- The two response bodies of a combined fetch, when both requests resolved. -/
def jointBodies (recordsRes : Outcome (List AttendanceRecord))
    (summaryRes : Outcome AttendanceSummary) :
    Option (List AttendanceRecord × AttendanceSummary) :=
  match recordsRes, summaryRes with
  | .resolved recs, .resolved summ => some (recs, summ)
  | _, _ => none

/-- The bodies of the records and summary requests an action carries, when both
resolved. -/
def Action.fetchedPair : Action → Option (List AttendanceRecord × AttendanceSummary)
  | .selectEmployee _ recordsRes summaryRes => jointBodies recordsRes summaryRes
  | .applyFilter recordsRes summaryRes => jointBodies recordsRes summaryRes
  | .clearFilter recordsRes summaryRes => jointBodies recordsRes summaryRes
  | .submitMark _ recordsRes summaryRes => jointBodies recordsRes summaryRes
  | _ => none

/-- The pair `(records, summary)` after a handler is the pair of two jointly resolved
bodies of a combined fetch that the handler issued. -/
def FetchedPair (after : State) (t : List Effect)
    (bodies : Option (List AttendanceRecord × AttendanceSummary)) : Prop :=
  ∃ recs summ, bodies = some (recs, summ) ∧
    (callsOf t).filter ApiCall.isRecords ≠ [] ∧ (callsOf t).filter ApiCall.isSummary ≠ [] ∧
    after.records = recs ∧ after.summary = some summ

/-- The pair `(records, summary)` is the same in two states. -/
def SamePair (before after : State) : Prop :=
  after.records = before.records ∧ after.summary = before.summary

/-- The pair `(records, summary)` has its initial and reset value. -/
def ResetPair (after : State) : Prop := after.records = [] ∧ after.summary = none

/-- The three fields of the mark form, in the order in which they are validated. -/
inductive MarkField where
  | employee_id
  | date
  | status
  deriving DecidableEq, Repr

/-- The property name of a mark-form field. -/
def MarkField.key : MarkField → String
  | .employee_id => "employee_id"
  | .date => "date"
  | .status => "status"

/-- The value of a mark-form field. -/
def MarkField.value (form : MarkForm) : MarkField → String
  | .employee_id => form.employee_id
  | .date => form.date
  | .status => form.status

/-- The empty fields of a mark form. -/
def emptyFields (form : MarkForm) : List MarkField :=
  [MarkField.employee_id, MarkField.date, MarkField.status].filter
    (fun f => !truthy (f.value form))

/-- The mark calls of a trace. -/
def markCalls (t : List Effect) : List ApiCall := (callsOf t).filter ApiCall.isMark

end Attendance

/-! ## The modal (`src/components/Modal.jsx`) -/

namespace Modal

/-- The part of the document a modal touches: the `keydown` listeners registered on
`document`, each named by the modal instance whose `handleEsc` it is, and
`document.body.style.overflow`. -/
structure Document where
  keydownListeners : List Nat
  bodyOverflow : String
  deriving DecidableEq, Repr

/-- The document before any modal is mounted. -/
def Document.initial : Document := { keydownListeners := [], bodyOverflow := "" }

/-- The body of the effect of instance `id`, run after a render with the given `isOpen`. -/
def effect (id : Nat) (isOpen : Bool) (d : Document) : Document :=
  if isOpen then
    { keydownListeners := d.keydownListeners ++ [id], bodyOverflow := "hidden" }
  else d

/-- The cleanup function returned by the effect of instance `id`. -/
def cleanup (id : Nat) (d : Document) : Document :=
  { keydownListeners := d.keydownListeners.erase id, bodyOverflow := "" }

/-- A later render of a mounted instance: `isOpen` is the new prop value, `depsChanged`
tells whether `isOpen` or the identity of `onClose` differs from the previous render, in
which case the previous cleanup runs and then the effect. -/
def rerender (id : Nat) (isOpen depsChanged : Bool) (d : Document) : Document :=
  if depsChanged then effect id isOpen (cleanup id d) else d

/-- The renders of one instance after its mount, each with its `isOpen` and whether
`onClose` changed identity; returns the current `isOpen` and the document. -/
def renders (id : Nat) : Bool → Document → List (Bool × Bool) → Bool × Document
  | isOpen, d, [] => (isOpen, d)
  | isOpen, d, (nextOpen, onCloseChanged) :: rest =>
    renders id nextOpen (rerender id nextOpen (nextOpen != isOpen || onCloseChanged) d) rest

/-- The life of one instance from its mount through its later renders. -/
def mounted (id : Nat) (isOpen : Bool) (later : List (Bool × Bool)) : Bool × Document :=
  renders id isOpen (effect id isOpen Document.initial) later

/-- The elements of the modal that carry `onClick={onClose}`. -/
inductive ClickTarget where
  | backdrop
  | closeButton
  deriving DecidableEq, Repr

/-- What the component returns: `none` for `null`, otherwise the click targets of the
overlay it renders. -/
def render (isOpen : Bool) : Option (List ClickTarget) :=
  if !isOpen then none else some [.backdrop, .closeButton]

/-- The gestures a user can make towards a modal. -/
inductive Gesture where
  | keydown (key : String) : Gesture
  | click (target : ClickTarget) : Gesture
  deriving DecidableEq, Repr

/-- The listener `handleEsc`: the number of `onClose` calls it makes for a key. -/
def handleEsc (key : String) : Nat := if key = "Escape" then 1 else 0

/-- The number of times `onClose` of instance `id` is invoked by a gesture, given the
current `isOpen` and the document: a key-press runs every registered `handleEsc` of the
instance, a click runs `onClose` if the clicked element is rendered. -/
def onCloseCalls (id : Nat) (isOpen : Bool) (d : Document) : Gesture → Nat
  | .keydown key => d.keydownListeners.count id * handleEsc key
  | .click target =>
    match render isOpen with
    | some targets => if target ∈ targets then 1 else 0
    | none => 0

end Modal

/-! ## Further notions and sample inputs -/

/-- The text a failed request is reported with: the `detail` of the error payload when it
is present and not the empty string, otherwise the generic message of the operation. -/
def notifiedText (err : ApiError) (generic : String) : String :=
  match err.detail with
  | some d => if d = "" then generic else d
  | none => generic

/-- Whether the `if (error)` test of a page succeeds. -/
def errorShown (error : Option String) : Bool :=
  match error with
  | some msg => truthy msg
  | none => false

namespace Dashboard

/-- The two ways the primary fetch of the page is started: the mount effect and the retry
button of the error view, both bound to `fetchDashboard`. -/
inductive Action where
  | mount (res : Outcome DashboardSummary) : Action
  | retry (res : Outcome DashboardSummary) : Action

/-- One action applied to the page. -/
def step (s : State) : Action → State × List Effect
  | .mount res => fetchDashboard s res
  | .retry res => fetchDashboard s res

/-- The summary after the employee `EMP001 / Jane Doe / jane@co.com / Engineering` was
created. -/
def oneEmployeeSummary : DashboardSummary :=
  { total_employees := 1, total_departments := 1, present_today := 0, absent_today := 0,
    recent_employees := [Employees.jane], department_counts := [("Engineering", 1)] }

end Dashboard

namespace Employees

/-- The sample page with the delete confirmation open for the sample employee. -/
def sampleConfirming : State := { sampleState jane with deleteTarget := some jane }

/-- An error payload with a `detail`. -/
def sampleError : ApiError := { detail := some "Employee ID already exists" }

end Employees

/-! ## Several modals on one page -/

namespace Modal

/-- The modal instances mounted on a page, in tree order, each with its current `isOpen`,
and the document they share. -/
structure Page where
  modals : List (Nat × Bool)
  doc : Document
  deriving DecidableEq, Repr

/-- Mounting a page: the effect of every instance runs, in tree order. -/
def mountPage (modals : List (Nat × Bool)) : Page :=
  { modals := modals, doc := modals.foldl (fun d m => effect m.1 m.2 d) Document.initial }

/-- One commit of a re-render.  For the instance `id`, `next id` is its new `isOpen` and
whether its `onClose` changed identity.  The cleanups of all instances whose dependencies
changed run first, then the effects of these instances, both in tree order. -/
def commit (p : Page) (next : Nat → Bool × Bool) : Page :=
  let changed := p.modals.filter (fun m => (next m.1).1 != m.2 || (next m.1).2)
  let d1 := changed.foldl (fun d m => cleanup m.1 d) p.doc
  let d2 := changed.foldl (fun d m => effect m.1 (next m.1).1 d) d1
  { modals := p.modals.map (fun m => (m.1, (next m.1).1)), doc := d2 }

/-- Whether some mounted modal is open. -/
def anyOpen (p : Page) : Bool := p.modals.any (fun m => m.2)

/-- A page before its body, and with it its modals, is mounted. -/
def Page.initial : Page := { modals := [], doc := Document.initial }

/-- The modals of a page body mount: their effects run, in tree order. -/
def mountModals (p : Page) (modals : List (Nat × Bool)) : Page :=
  { modals := p.modals ++ modals, doc := modals.foldl (fun d m => effect m.1 m.2 d) p.doc }

/-- A re-render of a page of this repository.  Every page hands each of its modals an
inline arrow as `onClose` (`() => setShowAddModal(false)`, `() => setDeleteTarget(null)`,
`() => setShowMarkModal(false)`), a new function on every render, so the dependencies of
every modal's effect change in every commit; `nextOpen id` is the new `isOpen`. -/
def pageRender (p : Page) (nextOpen : Nat → Bool) : Page :=
  commit p (fun id => (nextOpen id, true))

/-- The page body goes away (route change, or the early return of the skeleton or of the
error view): all its modals unmount together and their cleanups run, in tree order. -/
def unmountPage (p : Page) : Page :=
  { modals := [], doc := p.modals.foldl (fun d m => cleanup m.1 d) p.doc }

/-- The commits a page goes through: its modals mount, it re-renders with new `isOpen`
values (a modal opens, closes or keeps its state), or its modals unmount. -/
inductive PageStep where
  | mount (modals : List (Nat × Bool)) : PageStep
  | render (nextOpen : Nat → Bool) : PageStep
  | unmount : PageStep

/-- One commit applied to the page. -/
def pageStep (p : Page) : PageStep → Page
  | .mount modals => mountModals p modals
  | .render nextOpen => pageRender p nextOpen
  | .unmount => unmountPage p

/-- A sequence of commits. -/
def runPage (p : Page) : List PageStep → Page
  | [] => p
  | st :: rest => runPage (pageStep p st) rest

/-- The two modals of the Employees page: the add modal with `isOpen={showAddModal}` and
the delete confirmation with `isOpen={!!deleteTarget}`. -/
def employeesModals (s : Employees.State) : List (Nat × Bool) :=
  [(0, s.showAddModal), (1, s.deleteTarget.isSome)]

/-- The `isOpen` values the Employees page passes to its two modals. -/
def employeesOpen (s : Employees.State) (id : Nat) : Bool :=
  if id = 0 then s.showAddModal else s.deleteTarget.isSome

/-- The modal of the Attendance page, with `isOpen={showMarkModal}`. -/
def attendanceModals (s : Attendance.State) : List (Nat × Bool) := [(0, s.showMarkModal)]

end Modal

/-! ## The shape of an accepted email, in the words of the specification -/

/-- The part of a string before its first `@`. -/
def localPart (l : List Char) : List Char := l.takeWhile (fun c => c != '@')

/-- The part of a string after its first `@`. -/
def afterAt (l : List Char) : List Char := (l.dropWhile (fun c => c != '@')).drop 1

/-- Whether a string contains a `.` that is neither its first nor its last character. -/
def hasInnerDot (r : List Char) : Bool := (r.drop 1).dropLast.elem '.'

/-- The `local@domain.tld` shape: exactly one `@`, no whitespace character, at least one
character before the `@`, and after it a `.` that is neither first nor last. -/
def claimedEmailShape (s : String) : Bool :=
  s.data.count '@' == 1 && s.data.all (fun c => !isJsWhitespace c) &&
    !(localPart s.data).isEmpty && hasInnerDot (afterAt s.data)

namespace Employees

/-- The value of a form field. -/
def Field.value (form : Employee) : Field → String
  | .employee_id => form.employee_id
  | .full_name => form.full_name
  | .email => form.email
  | .department => form.department

/-- The message `validateForm` records for a blank field. -/
def Field.requiredMessage : Field → String
  | .employee_id => "Employee ID is required"
  | .full_name => "Full name is required"
  | .email => "Email is required"
  | .department => "Department is required"

/-- A valid form whose identifier, name and department carry outer whitespace. -/
def samplePadded : Employee :=
  { employee_id := " EMP001 ", full_name := "  Jane Doe", email := "jane@co.com",
    department := "Engineering " }

end Employees

/-! ## The segments of a request path -/

/-- Splitting a character list at every `/`. -/
def splitSlash : List Char → List (List Char)
  | [] => [[]]
  | c :: cs =>
    if c == '/' then [] :: splitSlash cs
    else
      match splitSlash cs with
      | [] => [[c]]
      | seg :: rest => (c :: seg) :: rest

/-- The path of a URL: what precedes the first `?` or `#`. -/
def pathOf (url : List Char) : List Char := url.takeWhile (fun c => c != '?' && c != '#')

/-- The segments of the path of a URL that starts with `/`. -/
def pathSegments (url : String) : List (List Char) := (splitSlash (pathOf url.data)).tail

/-- Whether an identifier contains one of `/`, `?`, `#`. -/
def hasReserved (id : String) : Bool := id.data.any (fun c => c == '/' || c == '?' || c == '#')

/-! ## The regular-expression matcher computes the language -/

theorem Regex.nullable_iff (r : Regex) : r.nullable = true ↔ Regex.Matches r [] := by
  induction r with
  | nothing => simp only [Regex.nullable]; constructor
               · intro h; cases h
               · intro h; cases h
  | eps => simp only [Regex.nullable]; exact ⟨fun _ => .eps, fun _ => trivial⟩
  | cls p => simp only [Regex.nullable]; constructor
             · intro h; cases h
             · intro h; cases h
  | seq a b iha ihb =>
    simp only [Regex.nullable, Bool.and_eq_true, iha, ihb]
    constructor
    · rintro ⟨ha, hb⟩
      exact Regex.Matches.seq ha hb
    · intro h
      generalize hl : ([] : List Char) = l at h
      cases h with
      | seq ha hb =>
        rename_i s t
        have hs : s = [] := by
          cases s with
          | nil => rfl
          | cons _ _ => simp at hl
        have ht : t = [] := by
          cases t with
          | nil => rfl
          | cons _ _ => simp [hs] at hl
        subst hs; subst ht
        exact ⟨ha, hb⟩
  | alt a b iha ihb =>
    simp only [Regex.nullable, Bool.or_eq_true, iha, ihb]
    constructor
    · rintro (h | h)
      · exact .altL _ h
      · exact .altR _ h
    · intro h
      cases h with
      | altL _ h => exact Or.inl h
      | altR _ h => exact Or.inr h
  | star a _ => simp only [Regex.nullable]; exact ⟨fun _ => .starNil a, fun _ => trivial⟩

theorem Regex.star_cons_split {a : Regex} {l : List Char} (h : Regex.Matches (.star a) l) :
    ∀ c cs, l = c :: cs →
      ∃ s t, cs = s ++ t ∧ Regex.Matches a (c :: s) ∧ Regex.Matches (.star a) t := by
  generalize hr : Regex.star a = r at h
  induction h with
  | eps => intro c cs hl; cases hr
  | cls p c h => intro c cs hl; cases hr
  | seq _ _ _ _ => intro c cs hl; cases hr
  | altL _ _ _ => intro c cs hl; cases hr
  | altR _ _ _ => intro c cs hl; cases hr
  | starNil a => intro c cs hl; cases hl
  | @starCons a0 s t ha ht _ iht =>
    intro c cs hl
    cases hr
    cases s with
    | nil => exact iht rfl c cs (by simpa using hl)
    | cons x xs =>
      have hl2 : x = c ∧ xs ++ t = cs := by simpa using hl
      obtain ⟨hx, hcs⟩ := hl2
      subst hx
      exact ⟨xs, t, hcs.symm, ha, ht⟩

theorem Regex.deriv_iff (r : Regex) :
    ∀ (c : Char) (s : List Char), Regex.Matches (r.deriv c) s ↔ Regex.Matches r (c :: s) := by
  induction r with
  | nothing =>
    intro c s; simp only [Regex.deriv]
    constructor
    · intro h; cases h
    · intro h; cases h
  | eps =>
    intro c s; simp only [Regex.deriv]
    constructor
    · intro h; cases h
    · intro h; cases h
  | cls p =>
    intro c s; simp only [Regex.deriv]
    constructor
    · intro h
      by_cases hp : p c = true
      · rw [if_pos hp] at h
        cases h
        exact .cls p c hp
      · rw [if_neg hp] at h
        cases h
    · intro h
      cases h with
      | cls _ _ hp =>
        rw [if_pos hp]
        exact .eps
  | seq a b iha ihb =>
    intro c s
    have fwd : Regex.Matches (.seq (a.deriv c) b) s → Regex.Matches (.seq a b) (c :: s) := by
      intro h
      cases h with
      | seq h1 h2 =>
        rename_i s1 s2
        have := Regex.Matches.seq ((iha c s1).1 h1) h2
        simpa using this
    have bwd : Regex.Matches (.seq a b) (c :: s) →
        Regex.Matches (.seq (a.deriv c) b) s ∨
          (Regex.Matches a [] ∧ Regex.Matches b (c :: s)) := by
      intro h
      generalize hl : c :: s = l at h
      cases h with
      | seq h1 h2 =>
        rename_i s1 s2
        cases s1 with
        | nil =>
          simp only [List.nil_append] at hl
          subst hl
          exact Or.inr ⟨h1, h2⟩
        | cons x xs =>
          simp only [List.cons_append, List.cons.injEq] at hl
          obtain ⟨hx, hs⟩ := hl
          subst hx; subst hs
          exact Or.inl (.seq ((iha c xs).2 h1) h2)
    simp only [Regex.deriv]
    by_cases hn : a.nullable = true
    · rw [if_pos hn]
      constructor
      · intro h
        cases h with
        | altL _ h => exact fwd h
        | altR _ h =>
          have := Regex.Matches.seq ((Regex.nullable_iff a).1 hn) ((ihb c s).1 h)
          simpa using this
      · intro h
        rcases bwd h with h | ⟨_, h⟩
        · exact .altL _ h
        · exact .altR _ ((ihb c s).2 h)
    · rw [if_neg hn]
      constructor
      · exact fwd
      · intro h
        rcases bwd h with h | ⟨h0, _⟩
        · exact h
        · exact absurd ((Regex.nullable_iff a).2 h0) hn
  | alt a b iha ihb =>
    intro c s; simp only [Regex.deriv]
    constructor
    · intro h
      cases h with
      | altL _ h => exact .altL _ ((iha c s).1 h)
      | altR _ h => exact .altR _ ((ihb c s).1 h)
    · intro h
      cases h with
      | altL _ h => exact .altL _ ((iha c s).2 h)
      | altR _ h => exact .altR _ ((ihb c s).2 h)
  | star a iha =>
    intro c s; simp only [Regex.deriv]
    constructor
    · intro h
      cases h with
      | seq h1 h2 =>
        rename_i s1 s2
        have := Regex.Matches.starCons ((iha c s1).1 h1) h2
        simpa using this
    · intro h
      obtain ⟨s1, s2, hs, h1, h2⟩ := Regex.star_cons_split h c s rfl
      subst hs
      exact .seq ((iha c s1).2 h1) h2

/-- The derivative matcher accepts exactly the language of the expression. -/
theorem Regex.fullMatch_iff (r : Regex) (s : List Char) :
    r.fullMatch s = true ↔ Regex.Matches r s := by
  induction s generalizing r with
  | nil => simpa only [Regex.fullMatch] using Regex.nullable_iff r
  | cons c cs ih =>
    simp only [Regex.fullMatch]
    exact (ih (r.deriv c)).trans (Regex.deriv_iff r c cs)

theorem Regex.matches_seq_iff (a b : Regex) (l : List Char) :
    Regex.Matches (.seq a b) l ↔
      ∃ s t, l = s ++ t ∧ Regex.Matches a s ∧ Regex.Matches b t := by
  constructor
  · intro h
    cases h with
    | @seq _ _ s t ha hb => exact ⟨s, t, rfl, ha, hb⟩
  · rintro ⟨s, t, rfl, ha, hb⟩
    exact .seq ha hb

theorem Regex.matches_cls_iff (p : Char → Bool) (l : List Char) :
    Regex.Matches (.cls p) l ↔ ∃ c, l = [c] ∧ p c = true := by
  constructor
  · intro h
    cases h with
    | cls _ c hp => exact ⟨c, rfl, hp⟩
  · rintro ⟨c, rfl, hp⟩
    exact .cls p c hp

theorem Regex.matches_chr_iff (c : Char) (l : List Char) :
    Regex.Matches (Regex.chr c) l ↔ l = [c] := by
  unfold Regex.chr
  rw [Regex.matches_cls_iff]
  constructor
  · rintro ⟨d, rfl, hd⟩
    have : d = c := by simpa using hd
    rw [this]
  · rintro rfl
    exact ⟨c, rfl, by simp⟩

theorem Regex.matches_star_cls_iff (p : Char → Bool) (l : List Char) :
    Regex.Matches (.star (.cls p)) l ↔ ∀ x ∈ l, p x = true := by
  constructor
  · intro h
    generalize hr : Regex.star (Regex.cls p) = r at h
    induction h with
    | eps => cases hr
    | cls _ _ _ => cases hr
    | seq _ _ _ _ => cases hr
    | altL _ _ _ => cases hr
    | altR _ _ _ => cases hr
    | starNil _ => intro x hx; cases hx
    | @starCons a0 s t ha _ _ iht =>
      cases hr
      obtain ⟨c, rfl, hc⟩ := (Regex.matches_cls_iff p s).1 ha
      intro x hx
      rcases List.mem_append.1 hx with h1 | h2
      · have : x = c := by simpa using h1
        rw [this]; exact hc
      · exact iht rfl x h2
  · intro h
    induction l with
    | nil => exact .starNil _
    | cons c cs ih =>
      have hc : p c = true := h c (List.mem_cons_self c cs)
      have hcs : Regex.Matches (.star (.cls p)) cs :=
        ih (fun x hx => h x (List.mem_cons_of_mem c hx))
      exact Regex.Matches.starCons (Regex.Matches.cls p c hc) hcs

theorem Regex.matches_plus_cls_iff (p : Char → Bool) (l : List Char) :
    Regex.Matches (Regex.plus (.cls p)) l ↔ l ≠ [] ∧ ∀ x ∈ l, p x = true := by
  unfold Regex.plus
  rw [Regex.matches_seq_iff]
  constructor
  · rintro ⟨s, t, rfl, hs, ht⟩
    obtain ⟨c, rfl, hc⟩ := (Regex.matches_cls_iff p s).1 hs
    refine ⟨by simp, ?_⟩
    intro x hx
    rcases List.mem_append.1 hx with h1 | h2
    · have : x = c := by simpa using h1
      rw [this]; exact hc
    · exact (Regex.matches_star_cls_iff p t).1 ht x h2
  · rintro ⟨hne, hall⟩
    cases l with
    | nil => exact absurd rfl hne
    | cons c cs =>
      refine ⟨[c], cs, rfl, .cls p c (hall c (List.mem_cons_self c cs)), ?_⟩
      exact (Regex.matches_star_cls_iff p cs).2 (fun x hx => hall x (List.mem_cons_of_mem c hx))

/-- The pattern of `validateForm` accepts exactly the strings of the shape
`local@domain.tld`. -/
theorem emailRegexTest_iff (s : String) : emailRegexTest s = true ↔ EmailShape s.data := by
  unfold emailRegexTest emailRegex EmailShape
  rw [Regex.fullMatch_iff, Regex.matches_seq_iff]
  constructor
  · rintro ⟨a, r1, h1, ha, hr1⟩
    obtain ⟨at1, r2, h2, hat, hr2⟩ := (Regex.matches_seq_iff _ _ r1).1 hr1
    obtain ⟨b, r3, h3, hb, hr3⟩ := (Regex.matches_seq_iff _ _ r2).1 hr2
    obtain ⟨dot1, c, h4, hdot, hc⟩ := (Regex.matches_seq_iff _ _ r3).1 hr3
    have hat2 := (Regex.matches_chr_iff _ _).1 hat
    have hdot2 := (Regex.matches_chr_iff _ _).1 hdot
    obtain ⟨hane, hap⟩ := (Regex.matches_plus_cls_iff _ _).1 ha
    obtain ⟨hbne, hbp⟩ := (Regex.matches_plus_cls_iff _ _).1 hb
    obtain ⟨hcne, hcp⟩ := (Regex.matches_plus_cls_iff _ _).1 hc
    refine ⟨a, b, c, ?_, hane, hbne, hcne, hap, hbp, hcp⟩
    rw [h1, h2, h3, h4, hat2, hdot2]
    simp
  · rintro ⟨a, b, c, hl, hane, hbne, hcne, hap, hbp, hcp⟩
    refine ⟨a, '@' :: (b ++ '.' :: c), hl, (Regex.matches_plus_cls_iff _ _).2 ⟨hane, hap⟩, ?_⟩
    rw [Regex.matches_seq_iff]
    refine ⟨['@'], b ++ '.' :: c, rfl, (Regex.matches_chr_iff _ _).2 rfl, ?_⟩
    rw [Regex.matches_seq_iff]
    refine ⟨b, '.' :: c, rfl, (Regex.matches_plus_cls_iff _ _).2 ⟨hbne, hbp⟩, ?_⟩
    rw [Regex.matches_seq_iff]
    exact ⟨['.'], c, rfl, (Regex.matches_chr_iff _ _).2 rfl,
      (Regex.matches_plus_cls_iff _ _).2 ⟨hcne, hcp⟩⟩

/-! ## Trimming -/

theorem dropWhile_all_iff (p : Char → Bool) (l : List Char) :
    (∀ x ∈ l.dropWhile p, p x = true) ↔ ∀ x ∈ l, p x = true := by
  induction l with
  | nil => simp
  | cons c cs ih =>
    by_cases hc : p c = true
    · rw [List.dropWhile_cons_of_pos hc, ih]
      constructor
      · intro h x hx
        rcases List.mem_cons.1 hx with rfl | hx
        · exact hc
        · exact h x hx
      · intro h x hx
        exact h x (List.mem_cons_of_mem c hx)
    · rw [List.dropWhile_cons_of_neg hc]

theorem trimChars_eq_nil_iff (l : List Char) :
    trimChars l = [] ↔ ∀ x ∈ l, isJsWhitespace x = true := by
  unfold trimChars
  rw [List.reverse_eq_nil_iff, List.dropWhile_eq_nil_iff]
  constructor
  · intro h
    exact (dropWhile_all_iff _ l).1 (fun x hx => h x (List.mem_reverse.2 hx))
  · intro h x hx
    exact (dropWhile_all_iff _ l).2 h x (List.mem_reverse.1 hx)

/-- The test `!value.trim()` of the validators holds exactly for blank strings. -/
theorem truthy_trim_eq_false_iff (s : String) : truthy (trim s) = false ↔ isBlank s = true := by
  unfold truthy trim isBlank
  rw [List.all_eq_true, ← trimChars_eq_nil_iff]
  cases trimChars s.data <;> simp

theorem truthy_trim_eq_not_isBlank (s : String) : truthy (trim s) = !isBlank s := by
  cases h : isBlank s
  · cases h2 : truthy (trim s)
    · rw [(truthy_trim_eq_false_iff s).1 h2] at h; cases h
    · rfl
  · simpa using (truthy_trim_eq_false_iff s).2 h

/-- A string accepted by the email pattern is not blank. -/
theorem isBlank_eq_false_of_emailRegexTest (s : String) (h : emailRegexTest s = true) :
    isBlank s = false := by
  obtain ⟨a, b, c, hl, hane, _, _, hap, _, _⟩ := (emailRegexTest_iff s).1 h
  cases a with
  | nil => exact absurd rfl hane
  | cons x xs =>
    have hx : notSpaceOrAt x = true := hap x (List.mem_cons_self x xs)
    have hw : isJsWhitespace x = false := by
      unfold notSpaceOrAt at hx
      cases hws : isJsWhitespace x
      · rfl
      · rw [hws] at hx; simp at hx
    unfold isBlank
    rw [hl]
    simp [hw]

/-! ## Traces -/

theorem callsOf_append (t u : List Effect) : callsOf (t ++ u) = callsOf t ++ callsOf u := by
  induction t with
  | nil => rfl
  | cons e rest ih => cases e <;> simp [callsOf, ih]

/-! ## Employees page: validation and submission -/

namespace Employees

theorem validationErrors_keys (form : Employee) :
    (validationErrors form).keys = (offendingFields form).map Field.key := by
  simp only [validationErrors, truthy_trim_eq_not_isBlank, Bool.not_not]
  cases h1 : isBlank form.employee_id <;> cases h2 : isBlank form.full_name <;>
    cases h3 : isBlank form.email <;> cases h4 : emailRegexTest form.email <;>
    cases h5 : isBlank form.department <;>
    simp [offendingFields, allFields, offends, List.filter, h1, h2, h3, h4, h5,
      JsObject.assign, JsObject.keys, Field.key]

theorem Field.key_injective (f g : Field) (h : f.key = g.key) : f = g := by
  cases f <;> cases g <;> first | rfl | (simp [Field.key] at h)

theorem mem_offendingFields (form : Employee) (f : Field) :
    f ∈ offendingFields form ↔ offends form f = true := by
  unfold offendingFields allFields
  rw [List.mem_filter]
  constructor
  · exact fun h => h.2
  · intro h
    refine ⟨?_, h⟩
    cases f <;> simp

theorem offendingFields_nodup (form : Employee) : (offendingFields form).Nodup := by
  unfold offendingFields
  apply List.Nodup.filter
  unfold allFields
  decide

theorem validateForm_ok_iff (s : State) :
    (validateForm s).2 = true ↔ offendingFields s.form = [] := by
  unfold validateForm
  simp only [beq_iff_eq]
  rw [validationErrors_keys, List.length_map, List.length_eq_zero]

theorem handleSubmit_of_offending (s : State) (createRes : Outcome Unit)
    (listRes : Outcome (List Employee)) (h : offendingFields s.form ≠ []) :
    handleSubmit s createRes listRes = ((validateForm s).1, []) := by
  have hok : (validateForm s).2 = false := by
    cases hv : (validateForm s).2
    · rfl
    · exact absurd ((validateForm_ok_iff s).1 hv) h
  unfold handleSubmit
  rw [show validateForm s = ((validateForm s).1, (validateForm s).2) from rfl]
  simp only [hok]
  rfl

theorem validationErrors_keys_of_valid (form : Employee) (h : offendingFields form = []) :
    (validationErrors form).keys = [] := by
  rw [validationErrors_keys, h]
  rfl

/-- C1: a form with a missing (blank) required field or a malformed email is not
submitted: `handleSubmit` has no effect outside the state (no API call, no
notification), validation fails, and the error object stored by `validateForm` has
exactly the offending fields as its keys, each once, in validation order; a field that
does not offend has no entry. -/
theorem invalid_form_blocks_submission (s : State) (createRes : Outcome Unit)
    (listRes : Outcome (List Employee)) (h : ∃ f, offends s.form f = true) :
    (handleSubmit s createRes listRes).2 = [] ∧
    (validateForm s).2 = false ∧
    (handleSubmit s createRes listRes).1.formErrors = (validateForm s).1.formErrors ∧
    (validateForm s).1.formErrors.keys = (offendingFields s.form).map Field.key ∧
    (validateForm s).1.formErrors.keys.Nodup ∧
    ∀ f : Field, f.key ∈ (validateForm s).1.formErrors.keys ↔ offends s.form f = true := by
  obtain ⟨f0, hf0⟩ := h
  have hne : offendingFields s.form ≠ [] := by
    intro hnil
    have := (mem_offendingFields s.form f0).2 hf0
    rw [hnil] at this
    cases this
  have hkeys : (validateForm s).1.formErrors.keys = (offendingFields s.form).map Field.key :=
    validationErrors_keys s.form
  refine ⟨?_, ?_, ?_, hkeys, ?_, ?_⟩
  · rw [handleSubmit_of_offending s createRes listRes hne]
  · cases hv : (validateForm s).2
    · rfl
    · exact absurd ((validateForm_ok_iff s).1 hv) hne
  · rw [handleSubmit_of_offending s createRes listRes hne]
  · rw [hkeys]
    exact List.Nodup.map (fun a b hab => Field.key_injective a b hab) (offendingFields_nodup s.form)
  · intro f
    rw [hkeys, List.mem_map]
    constructor
    · rintro ⟨g, hg, hgf⟩
      have := Field.key_injective g f hgf
      subst this
      exact (mem_offendingFields s.form g).1 hg
    · intro hf
      exact ⟨f, (mem_offendingFields s.form f).2 hf, rfl⟩

/-- C1 at a form with an empty identifier and the email `jane@co`: the keys are
`employee_id` and `email`. -/
theorem invalid_form_blocks_submission_witness :
    (∃ f, offends (sampleState sampleInvalid).form f = true) ∧
    (handleSubmit (sampleState sampleInvalid) (.resolved ()) (.resolved [jane])).2 = [] ∧
    (validateForm (sampleState sampleInvalid)).1.formErrors.keys = ["employee_id", "email"] :=
  have h : ∃ f, offends (sampleState sampleInvalid).form f = true := ⟨.email, by decide⟩
  ⟨h, (invalid_form_blocks_submission (sampleState sampleInvalid) (.resolved ())
      (.resolved [jane]) h).1, by decide⟩

/-- C2 as stated fails: the identifier `" "` is a non-empty string and the other
fields are well-formed, yet `handleSubmit` issues no call at all and the modal stays
open. -/
theorem space_identifier_not_submitted :
    sampleSpaceId.employee_id ≠ "" ∧ sampleSpaceId.full_name ≠ "" ∧
    sampleSpaceId.department ≠ "" ∧ emailRegexTest sampleSpaceId.email = true ∧
    callsOf (handleSubmit (sampleState sampleSpaceId) (.resolved ()) (.resolved [jane])).2 = [] ∧
    (handleSubmit (sampleState sampleSpaceId) (.resolved ()) (.resolved [jane])).1.showAddModal
      = true := by
  decide

/-- C2, amended: when `employee_id`, `full_name` and `department` are not blank and the
email matches the pattern, `handleSubmit` issues exactly one create call, with the form
as entered; when that call resolves, exactly one list fetch follows and the add modal
is closed. -/
theorem valid_form_submits_once (s : State) (createRes : Outcome Unit)
    (listRes : Outcome (List Employee))
    (hid : isBlank s.form.employee_id = false) (hname : isBlank s.form.full_name = false)
    (hdept : isBlank s.form.department = false) (hemail : emailRegexTest s.form.email = true) :
    createCalls (handleSubmit s createRes listRes).2 = [.employeeCreate s.form] ∧
    ∀ u, createRes = .resolved u →
      callsOf (handleSubmit s createRes listRes).2 = [.employeeCreate s.form, .employeeGetAll] ∧
      (handleSubmit s createRes listRes).1.showAddModal = false := by
  have hvalid : offendingFields s.form = [] := by
    have hb := isBlank_eq_false_of_emailRegexTest s.form.email hemail
    simp [offendingFields, allFields, offends, List.filter, hid, hname, hdept, hemail, hb]
  have hkeys := validationErrors_keys_of_valid s.form hvalid
  cases createRes with
  | resolved u =>
    refine ⟨?_, ?_⟩
    · cases listRes <;>
        simp [handleSubmit, validateForm, hkeys, createCalls, callsOf, fetchEmployees,
          ApiCall.isCreate]
    · intro _ _
      cases listRes <;>
        simp [handleSubmit, validateForm, hkeys, callsOf, fetchEmployees, resetForm]
  | rejected err =>
    refine ⟨?_, ?_⟩
    · simp [handleSubmit, validateForm, hkeys, createCalls, callsOf, ApiCall.isCreate]
    · intro u hu
      cases hu

/-- C2, amended, at the form of a sample employee. -/
theorem valid_form_submits_once_witness :
    isBlank (sampleState jane).form.employee_id = false ∧
    createCalls (handleSubmit (sampleState jane) (.resolved ()) (.resolved [jane])).2
      = [.employeeCreate jane] :=
  ⟨by decide, (valid_form_submits_once (sampleState jane) (.resolved ()) (.resolved [jane])
      (by decide) (by decide) (by decide) (by decide)).1⟩

/-! ## Employees page: deletion -/

theorem deleteCalls_append (t u : List Effect) :
    deleteCalls (t ++ u) = deleteCalls t ++ deleteCalls u := by
  simp [deleteCalls, callsOf_append]

theorem deleteCalls_fetchEmployees (s : State) (listRes : Outcome (List Employee)) :
    deleteCalls (fetchEmployees s listRes).2 = [] := by
  simp [fetchEmployees, deleteCalls, callsOf, ApiCall.isDelete]

theorem deleteCalls_handleSubmit (s : State) (createRes : Outcome Unit)
    (listRes : Outcome (List Employee)) :
    deleteCalls (handleSubmit s createRes listRes).2 = [] := by
  by_cases h : (validationErrors s.form).keys = [] <;> cases createRes <;>
    simp [handleSubmit, validateForm, h, deleteCalls, callsOf, fetchEmployees, ApiCall.isDelete]

theorem deleteCalls_handleDelete_length (s : State) (deleteRes : Outcome Unit)
    (listRes : Outcome (List Employee)) :
    (deleteCalls (handleDelete s deleteRes listRes).2).length ≤ 1 := by
  unfold handleDelete
  cases s.deleteTarget <;> cases deleteRes <;>
    simp [deleteCalls, callsOf, fetchEmployees, ApiCall.isDelete]

theorem deleteCalls_step_length (s : State) (a : Action) :
    (deleteCalls (step s a).2).length ≤ (if a.isConfirm then 1 else 0) := by
  cases a with
  | mount listRes => simp [step, deleteCalls_fetchEmployees, Action.isConfirm]
  | retry listRes => simp [step, deleteCalls_fetchEmployees, Action.isConfirm]
  | openAdd => simp [step, deleteCalls, callsOf, Action.isConfirm]
  | closeAdd => simp [step, deleteCalls, callsOf, Action.isConfirm]
  | edit f v => simp [step, deleteCalls, callsOf, Action.isConfirm]
  | submit createRes listRes => simp [step, deleteCalls_handleSubmit, Action.isConfirm]
  | clickDelete emp => simp [step, clickDelete, deleteCalls, callsOf, Action.isConfirm]
  | cancelDelete => simp [step, cancelDelete, deleteCalls, callsOf, Action.isConfirm]
  | confirmDelete deleteRes listRes =>
    simpa [step, Action.isConfirm] using deleteCalls_handleDelete_length s deleteRes listRes

theorem deleteCalls_run_length (s : State) (acts : List Action) :
    (deleteCalls (run s acts).2).length ≤ (acts.filter Action.isConfirm).length := by
  induction acts generalizing s with
  | nil => simp [run, deleteCalls, callsOf]
  | cons a rest ih =>
    have h1 := deleteCalls_step_length s a
    have h2 := ih (step s a).1
    simp only [run, deleteCalls_append, List.length_append]
    cases ha : a.isConfirm
    · rw [ha] at h1
      rw [List.filter_cons_of_neg (by simp [ha])]
      simp only [Bool.false_eq_true, if_false] at h1
      omega
    · rw [ha] at h1
      rw [List.filter_cons_of_pos ha]
      simp only [if_true, List.length_cons] at h1 ⊢
      omega

/-- C3: the delete call waits for the confirmation.  Clicking a row's delete control only
sets `deleteTarget` and issues nothing; `handleDelete` with no target changes nothing and
issues nothing; `handleDelete` with a target issues exactly one delete call, for that
target's `employee_id`, as its first effect, whatever the outcomes; and over any sequence
of user actions the delete calls never outnumber the confirm actions. -/
theorem delete_requires_confirmation :
    (∀ (s : State) (emp : Employee),
      clickDelete s emp = ({ s with deleteTarget := some emp }, [])) ∧
    (∀ (s : State) (d : Outcome Unit) (l : Outcome (List Employee)),
      handleDelete { s with deleteTarget := none } d l = ({ s with deleteTarget := none }, [])) ∧
    (∀ (s : State) (t : Employee) (d : Outcome Unit) (l : Outcome (List Employee)),
      deleteCalls (handleDelete { s with deleteTarget := some t } d l).2
        = [.employeeDelete t.employee_id] ∧
      (handleDelete { s with deleteTarget := some t } d l).2.head?
        = some (.call (.employeeDelete t.employee_id))) ∧
    (∀ (s : State) (acts : List Action),
      (deleteCalls (run s acts).2).length ≤ (acts.filter Action.isConfirm).length) := by
  refine ⟨fun _ _ => rfl, fun _ _ _ => rfl, ?_, deleteCalls_run_length⟩
  intro s t d l
  cases d <;> cases l <;>
    simp [handleDelete, deleteCalls, callsOf, fetchEmployees, ApiCall.isDelete]

end Employees

/-! ## Attendance page: the combined records and summary fetch -/

namespace Attendance

theorem fetchRecords_of_truthy (s : State) (empId fromDate toDate : String)
    (recordsRes : Outcome (List AttendanceRecord)) (summaryRes : Outcome AttendanceSummary)
    (h : truthy empId = true) :
    fetchRecords s empId fromDate toDate recordsRes summaryRes =
      match recordsRes, summaryRes with
      | .resolved recs, .resolved summ =>
        ({ s with records := recs, summary := some summ, recordsLoading := false },
          [.call (.attendanceGetByEmployee empId (rangeParams fromDate toDate)),
           .call (.attendanceGetSummary empId)])
      | _, _ =>
        ({ s with recordsLoading := false },
          [.call (.attendanceGetByEmployee empId (rangeParams fromDate toDate)),
           .call (.attendanceGetSummary empId),
           .toastError "Failed to load attendance records"]) := by
  unfold fetchRecords
  simp only [h, Bool.not_true, Bool.false_eq_true, if_false]
  cases recordsRes <;> cases summaryRes <;> rfl

theorem callsOf_fetchRecords (s : State) (empId fromDate toDate : String)
    (recordsRes : Outcome (List AttendanceRecord)) (summaryRes : Outcome AttendanceSummary)
    (h : truthy empId = true) :
    callsOf (fetchRecords s empId fromDate toDate recordsRes summaryRes).2 =
      [.attendanceGetByEmployee empId (rangeParams fromDate toDate),
       .attendanceGetSummary empId] := by
  rw [fetchRecords_of_truthy s empId fromDate toDate recordsRes summaryRes h]
  cases recordsRes <;> cases summaryRes <;> rfl

theorem rangeParams_empty : rangeParams "" "" = [] := by decide

/-- C4: `fetchRecords` with a non-empty employee id is all-or-nothing for the pair.
Either both requests resolved, and `records` and `summary` are the two response bodies,
or one of them rejected, and `records` and `summary` both keep their prior values. -/
theorem fetchRecords_all_or_nothing (s : State) (empId fromDate toDate : String)
    (recordsRes : Outcome (List AttendanceRecord)) (summaryRes : Outcome AttendanceSummary)
    (h : truthy empId = true) :
    (∃ recs summ, recordsRes = .resolved recs ∧ summaryRes = .resolved summ ∧
      (fetchRecords s empId fromDate toDate recordsRes summaryRes).1.records = recs ∧
      (fetchRecords s empId fromDate toDate recordsRes summaryRes).1.summary = some summ) ∨
    (((∃ e, recordsRes = .rejected e) ∨ (∃ e, summaryRes = .rejected e)) ∧
      (fetchRecords s empId fromDate toDate recordsRes summaryRes).1.records = s.records ∧
      (fetchRecords s empId fromDate toDate recordsRes summaryRes).1.summary = s.summary) := by
  rw [fetchRecords_of_truthy s empId fromDate toDate recordsRes summaryRes h]
  cases recordsRes with
  | resolved recs =>
    cases summaryRes with
    | resolved summ => exact Or.inl ⟨recs, summ, rfl, rfl, rfl, rfl⟩
    | rejected e => exact Or.inr ⟨Or.inr ⟨e, rfl⟩, rfl, rfl⟩
  | rejected e =>
    cases summaryRes with
    | resolved summ => exact Or.inr ⟨Or.inl ⟨e, rfl⟩, rfl, rfl⟩
    | rejected e2 => exact Or.inr ⟨Or.inl ⟨e, rfl⟩, rfl, rfl⟩

/-- C4 when the records request resolves and the summary request rejects: the records
body is dropped and the prior pair is kept. -/
theorem fetchRecords_all_or_nothing_witness :
    truthy "EMP001" = true ∧
    (fetchRecords sampleSelected "EMP001" "" "" (.resolved []) (.rejected ⟨none⟩)).1.records
      = [janeRecord] ∧
    (fetchRecords sampleSelected "EMP001" "" "" (.resolved []) (.rejected ⟨none⟩)).1.summary
      = some janeSummary := by
  have h := fetchRecords_all_or_nothing sampleSelected "EMP001" "" "" (.resolved [])
    (.rejected ⟨none⟩) (by decide)
  rcases h with ⟨recs, summ, _, h2, _, _⟩ | ⟨_, h2, h3⟩
  · cases h2
  · exact ⟨by decide, h2, h3⟩

/-- C5 fails on the code: after the first employee was shown, selecting the second one
with a rejected records request leaves the first employee's summary cards and records
table on the page under the new selection; one generic error notification is emitted. -/
theorem failed_selection_shows_previous_employee :
    (handleEmployeeChange sampleSelected "EMP002" (.rejected ⟨some "boom"⟩)
        (.resolved johnSummary)).1.selectedEmployee = "EMP002" ∧
    render (handleEmployeeChange sampleSelected "EMP002" (.rejected ⟨some "boom"⟩)
        (.resolved johnSummary)).1 = .content (some janeSummary) (.table [janeRecord]) ∧
    errorToastsOf (handleEmployeeChange sampleSelected "EMP002" (.rejected ⟨some "boom"⟩)
        (.resolved johnSummary)).2 = ["Failed to load attendance records"] := by
  decide

theorem callsOf_handleFilter_of_selected (s : State)
    (recordsRes : Outcome (List AttendanceRecord)) (summaryRes : Outcome AttendanceSummary)
    (h : truthy s.selectedEmployee = true) :
    callsOf (handleFilter s recordsRes summaryRes).2 =
      [.attendanceGetByEmployee s.selectedEmployee (rangeParams s.dateFrom s.dateTo),
       .attendanceGetSummary s.selectedEmployee] := by
  unfold handleFilter
  rw [if_pos h]
  exact callsOf_fetchRecords s _ _ _ recordsRes summaryRes h

/-- C6 as stated fails: with an employee selected and a range typed, the apply-filter
action issues a summary request next to the records request. -/
theorem handleFilter_issues_summary_request :
    truthy sampleRangeTyped.selectedEmployee = true ∧
    summaryCalls (handleFilter sampleRangeTyped (.resolved []) (.resolved janeSummary)).2
      = [.attendanceGetSummary "EMP001"] := by
  decide

/-- C6, amended: with an employee selected, `handleFilter` issues exactly two requests,
a records request for the selected employee with the parameters of the date-from/date-to
inputs and a summary request for the same employee. -/
theorem handleFilter_refetches_both (s : State)
    (recordsRes : Outcome (List AttendanceRecord)) (summaryRes : Outcome AttendanceSummary)
    (h : truthy s.selectedEmployee = true) :
    callsOf (handleFilter s recordsRes summaryRes).2 =
      [.attendanceGetByEmployee s.selectedEmployee (rangeParams s.dateFrom s.dateTo),
       .attendanceGetSummary s.selectedEmployee] :=
  callsOf_handleFilter_of_selected s recordsRes summaryRes h

/-- C6, amended, at the sample page with the range February 2024 typed. -/
theorem handleFilter_refetches_both_witness :
    truthy sampleRangeTyped.selectedEmployee = true ∧
    callsOf (handleFilter sampleRangeTyped (.resolved []) (.resolved janeSummary)).2 =
      [.attendanceGetByEmployee "EMP001"
          [("date_from", "2024-02-01"), ("date_to", "2024-02-29")],
       .attendanceGetSummary "EMP001"] :=
  ⟨by decide,
    handleFilter_refetches_both sampleRangeTyped (.resolved []) (.resolved janeSummary)
      (by decide)⟩

/-- C7: selecting a non-empty employee id sets `selectedEmployee`, empties both date
inputs and issues exactly two requests, a records request without parameters and a
summary request, both for that id, whatever the prior state and the outcomes. -/
theorem handleEmployeeChange_resets_and_fetches (s : State) (empId : String)
    (recordsRes : Outcome (List AttendanceRecord)) (summaryRes : Outcome AttendanceSummary)
    (h : truthy empId = true) :
    (handleEmployeeChange s empId recordsRes summaryRes).1.selectedEmployee = empId ∧
    (handleEmployeeChange s empId recordsRes summaryRes).1.dateFrom = "" ∧
    (handleEmployeeChange s empId recordsRes summaryRes).1.dateTo = "" ∧
    callsOf (handleEmployeeChange s empId recordsRes summaryRes).2 =
      [.attendanceGetByEmployee empId [], .attendanceGetSummary empId] := by
  unfold handleEmployeeChange
  refine ⟨?_, ?_, ?_, ?_⟩
  · rw [fetchRecords_of_truthy _ empId "" "" recordsRes summaryRes h]
    cases recordsRes <;> cases summaryRes <;> rfl
  · rw [fetchRecords_of_truthy _ empId "" "" recordsRes summaryRes h]
    cases recordsRes <;> cases summaryRes <;> rfl
  · rw [fetchRecords_of_truthy _ empId "" "" recordsRes summaryRes h]
    cases recordsRes <;> cases summaryRes <;> rfl
  · rw [callsOf_fetchRecords _ empId "" "" recordsRes summaryRes h, rangeParams_empty]

/-- C7 from a page that has a date range typed for another selection. -/
theorem handleEmployeeChange_resets_and_fetches_witness :
    truthy "EMP002" = true ∧ sampleRangeTyped.dateFrom = "2024-02-01" ∧
    (handleEmployeeChange sampleRangeTyped "EMP002" (.resolved []) (.resolved johnSummary)).1.dateFrom
      = "" ∧
    callsOf (handleEmployeeChange sampleRangeTyped "EMP002" (.resolved [])
        (.resolved johnSummary)).2 =
      [.attendanceGetByEmployee "EMP002" [], .attendanceGetSummary "EMP002"] :=
  have h := handleEmployeeChange_resets_and_fetches sampleRangeTyped "EMP002" (.resolved [])
    (.resolved johnSummary) (by decide)
  ⟨by decide, by decide, h.2.1, h.2.2.2⟩

/-! ## Attendance page: marking and clearing the filter -/

theorem markValidationErrors_keys_of_filled (form : MarkForm)
    (hid : truthy form.employee_id = true) (hdate : truthy form.date = true)
    (hstatus : truthy form.status = true) : (markValidationErrors form).keys = [] := by
  simp [markValidationErrors, hid, hdate, hstatus, JsObject.keys]

/-- C8 as stated fails: the visible records were fetched without a range, a range was
then typed into the inputs without applying it, and the refresh after a successful mark
for the selected employee asks for the typed range. -/
theorem mark_refresh_uses_typed_range :
    recordsCalls (handleEmployeeChange sampleMounted "EMP001" (.resolved [janeRecord])
        (.resolved janeSummary)).2 = [.attendanceGetByEmployee "EMP001" []] ∧
    sampleMarking.records = [janeRecord] ∧
    sampleMarking.selectedEmployee = sampleMarking.markForm.employee_id ∧
    recordsCalls (handleMarkSubmit sampleMarking (.resolved ()) (.resolved [])
        (.resolved janeSummary)).2 =
      [.attendanceGetByEmployee "EMP001"
          [("date_from", "2024-02-01"), ("date_to", "2024-02-29")]] := by
  decide

/-- C8, amended: when a mark submission with all three fields filled succeeds for the
selected employee, `handleMarkSubmit` issues the mark call and then re-runs the combined
fetch for that employee with the current values of the date-from/date-to inputs: the same
two requests the apply-filter action issues in that state. -/
theorem mark_refresh_uses_date_inputs (s : State) (u : Unit)
    (recordsRes : Outcome (List AttendanceRecord)) (summaryRes : Outcome AttendanceSummary)
    (hsel : s.selectedEmployee = s.markForm.employee_id)
    (hid : truthy s.markForm.employee_id = true) (hdate : truthy s.markForm.date = true)
    (hstatus : truthy s.markForm.status = true) :
    callsOf (handleMarkSubmit s (.resolved u) recordsRes summaryRes).2 =
      [.attendanceMark s.markForm.employee_id
          { date := s.markForm.date, status := s.markForm.status },
       .attendanceGetByEmployee s.selectedEmployee (rangeParams s.dateFrom s.dateTo),
       .attendanceGetSummary s.selectedEmployee] ∧
    callsOf (handleMarkSubmit s (.resolved u) recordsRes summaryRes).2 =
      .attendanceMark s.markForm.employee_id
          { date := s.markForm.date, status := s.markForm.status } ::
        callsOf (handleFilter s recordsRes summaryRes).2 := by
  have hkeys := markValidationErrors_keys_of_filled s.markForm hid hdate hstatus
  have hsel2 : truthy s.selectedEmployee = true := by rw [hsel]; exact hid
  have hfilter := callsOf_handleFilter_of_selected s recordsRes summaryRes hsel2
  have hmain : callsOf (handleMarkSubmit s (.resolved u) recordsRes summaryRes).2 =
      [.attendanceMark s.markForm.employee_id
          { date := s.markForm.date, status := s.markForm.status },
       .attendanceGetByEmployee s.selectedEmployee (rangeParams s.dateFrom s.dateTo),
       .attendanceGetSummary s.selectedEmployee] := by
    unfold handleMarkSubmit validateMarkForm
    simp only [hkeys, List.length_nil, beq_self_eq_true, Bool.not_true, Bool.false_eq_true,
      if_false, if_pos hsel]
    rw [callsOf_append, callsOf_fetchRecords _ _ _ _ recordsRes summaryRes hsel2]
    rfl
  exact ⟨hmain, by rw [hmain, hfilter]⟩

/-- C8, amended, at the sample page: the refresh carries the typed range. -/
theorem mark_refresh_uses_date_inputs_witness :
    sampleMarking.selectedEmployee = sampleMarking.markForm.employee_id ∧
    callsOf (handleMarkSubmit sampleMarking (.resolved ()) (.resolved [])
        (.resolved janeSummary)).2 =
      [.attendanceMark "EMP001" { date := "2024-01-11", status := "Present" },
       .attendanceGetByEmployee "EMP001"
          [("date_from", "2024-02-01"), ("date_to", "2024-02-29")],
       .attendanceGetSummary "EMP001"] :=
  ⟨by decide,
    (mark_refresh_uses_date_inputs sampleMarking () (.resolved []) (.resolved janeSummary)
      (by decide) (by decide) (by decide) (by decide)).1⟩

/-- C9: a mark submission for an employee id other than the selected one (also when
nobody is selected) issues no records request and no summary request and leaves
`records` and `summary` as they were, whether validation fails, the mark call resolves
or it rejects. -/
theorem mark_for_other_employee_keeps_view (s : State) (markRes : Outcome Unit)
    (recordsRes : Outcome (List AttendanceRecord)) (summaryRes : Outcome AttendanceSummary)
    (h : s.markForm.employee_id ≠ s.selectedEmployee) :
    recordsCalls (handleMarkSubmit s markRes recordsRes summaryRes).2 = [] ∧
    summaryCalls (handleMarkSubmit s markRes recordsRes summaryRes).2 = [] ∧
    (handleMarkSubmit s markRes recordsRes summaryRes).1.records = s.records ∧
    (handleMarkSubmit s markRes recordsRes summaryRes).1.summary = s.summary := by
  have hne : ¬ s.selectedEmployee = s.markForm.employee_id := fun e => h e.symm
  by_cases hk : (markValidationErrors s.markForm).keys = [] <;> cases markRes <;>
    simp [handleMarkSubmit, validateMarkForm, hk, hne, recordsCalls, summaryCalls, callsOf,
      ApiCall.isRecords, ApiCall.isSummary]

/-- C9 at the sample page, marking the second employee while the first is selected. -/
theorem mark_for_other_employee_keeps_view_witness :
    (setMarkForm sampleMarking { sampleMarking.markForm with employee_id := "EMP002" }).markForm.employee_id
      ≠ sampleMarking.selectedEmployee ∧
    callsOf (handleMarkSubmit
        (setMarkForm sampleMarking { sampleMarking.markForm with employee_id := "EMP002" })
        (.resolved ()) (.resolved []) (.resolved johnSummary)).2 =
      [.attendanceMark "EMP002" { date := "2024-01-11", status := "Present" }] ∧
    (handleMarkSubmit
        (setMarkForm sampleMarking { sampleMarking.markForm with employee_id := "EMP002" })
        (.resolved ()) (.resolved []) (.resolved johnSummary)).1.records = [janeRecord] :=
  ⟨by decide, by decide,
    (mark_for_other_employee_keeps_view
      (setMarkForm sampleMarking { sampleMarking.markForm with employee_id := "EMP002" })
      (.resolved ()) (.resolved []) (.resolved johnSummary) (by decide)).2.2.1⟩

/-- C10: `handleClearFilter` empties both date inputs; with an employee selected it
issues a records request without parameters and a summary request for that employee,
whatever range was set; with nobody selected it issues no request. -/
theorem handleClearFilter_refetches_unfiltered (s : State)
    (recordsRes : Outcome (List AttendanceRecord)) (summaryRes : Outcome AttendanceSummary) :
    (handleClearFilter s recordsRes summaryRes).1.dateFrom = "" ∧
    (handleClearFilter s recordsRes summaryRes).1.dateTo = "" ∧
    callsOf (handleClearFilter s recordsRes summaryRes).2 =
      (if truthy s.selectedEmployee then
        [.attendanceGetByEmployee s.selectedEmployee [],
         .attendanceGetSummary s.selectedEmployee]
      else []) := by
  unfold handleClearFilter
  cases h : truthy s.selectedEmployee
  · simp [callsOf]
  · simp only [if_true]
    refine ⟨?_, ?_, ?_⟩
    · rw [fetchRecords_of_truthy _ _ "" "" recordsRes summaryRes h]
      cases recordsRes <;> cases summaryRes <;> rfl
    · rw [fetchRecords_of_truthy _ _ "" "" recordsRes summaryRes h]
      cases recordsRes <;> cases summaryRes <;> rfl
    · rw [callsOf_fetchRecords _ _ "" "" recordsRes summaryRes h, rangeParams_empty]

end Attendance

/-! ## Failed requests: notification text -/

theorem truthy_eq_false_iff (s : String) : truthy s = false ↔ s = "" := by
  unfold truthy
  constructor
  · intro h
    have hd : s.data = [] := by
      cases hs : s.data with
      | nil => rfl
      | cons c cs => rw [hs] at h; simp at h
    exact String.ext hd
  · rintro rfl
    rfl

theorem truthy_eq_true_iff (s : String) : truthy s = true ↔ s ≠ "" := by
  constructor
  · intro h hs
    rw [(truthy_eq_false_iff s).2 hs] at h
    cases h
  · intro h
    cases ht : truthy s
    · exact absurd ((truthy_eq_false_iff s).1 ht) h
    · rfl

theorem detailOr_eq_notifiedText (err : ApiError) (generic : String) :
    detailOr err generic = notifiedText err generic := by
  unfold detailOr notifiedText
  cases hd : err.detail with
  | none => rfl
  | some d =>
    by_cases h : d = ""
    · simp [h, (truthy_eq_false_iff "").2 rfl]
    · simp [h, (truthy_eq_true_iff d).2 h]

theorem truthy_notifiedText (err : ApiError) (generic : String) (h : generic ≠ "") :
    truthy (notifiedText err generic) = true := by
  rw [truthy_eq_true_iff]
  unfold notifiedText
  cases err.detail with
  | none => exact h
  | some d =>
    by_cases hd : d = ""
    · simp [hd, h]
    · simp [hd]

/-! ## Failed mutations -/

theorem Attendance.markValidationErrors_keys (form : Attendance.MarkForm) :
    (Attendance.markValidationErrors form).keys =
      (Attendance.emptyFields form).map Attendance.MarkField.key := by
  cases h1 : truthy form.employee_id <;> cases h2 : truthy form.date <;>
    cases h3 : truthy form.status <;>
    simp [Attendance.markValidationErrors, Attendance.emptyFields, Attendance.MarkField.value,
      Attendance.MarkField.key, List.filter, h1, h2, h3, JsObject.assign, JsObject.keys]

theorem JsObject.eq_nil_of_keys (o : JsObject) (h : o.keys = []) : o = [] := by
  cases o with
  | nil => rfl
  | cons p rest => simp [JsObject.keys] at h

/-- C11: when the mutation call of a valid create, of a confirmed delete or of a filled
mark submission rejects, the handler issues only that call (no re-fetch) and emits
exactly one error notification, whose text is the payload's `detail` when that is a
non-empty string and the operation's generic message otherwise; the modal flag
(`showAddModal`, `deleteTarget`, `showMarkModal`) and the lists (`employees`, `records`,
`summary`) are unchanged and `submitting` or `deleting` is false afterwards. -/
theorem mutation_rejection_keeps_state
    (sc sd : Employees.State) (target : Employee) (sm : Attendance.State) (err : ApiError)
    (listRes : Outcome (List Employee)) (recordsRes : Outcome (List AttendanceRecord))
    (summaryRes : Outcome AttendanceSummary)
    (hform : Employees.offendingFields sc.form = [])
    (htarget : sd.deleteTarget = some target)
    (hmark : Attendance.emptyFields sm.markForm = []) :
    ((Employees.handleSubmit sc (.rejected err) listRes).2 =
        [.call (.employeeCreate sc.form),
         .toastError (notifiedText err "Failed to add employee")] ∧
      (Employees.handleSubmit sc (.rejected err) listRes).1.showAddModal = sc.showAddModal ∧
      (Employees.handleSubmit sc (.rejected err) listRes).1.employees = sc.employees ∧
      (Employees.handleSubmit sc (.rejected err) listRes).1.submitting = false) ∧
    ((Employees.handleDelete sd (.rejected err) listRes).2 =
        [.call (.employeeDelete target.employee_id),
         .toastError (notifiedText err "Failed to delete employee")] ∧
      (Employees.handleDelete sd (.rejected err) listRes).1.deleteTarget = sd.deleteTarget ∧
      (Employees.handleDelete sd (.rejected err) listRes).1.employees = sd.employees ∧
      (Employees.handleDelete sd (.rejected err) listRes).1.deleting = false) ∧
    ((Attendance.handleMarkSubmit sm (.rejected err) recordsRes summaryRes).2 =
        [.call (.attendanceMark sm.markForm.employee_id
            { date := sm.markForm.date, status := sm.markForm.status }),
         .toastError (notifiedText err "Failed to mark attendance")] ∧
      (Attendance.handleMarkSubmit sm (.rejected err) recordsRes summaryRes).1.showMarkModal
        = sm.showMarkModal ∧
      (Attendance.handleMarkSubmit sm (.rejected err) recordsRes summaryRes).1.employees
        = sm.employees ∧
      (Attendance.handleMarkSubmit sm (.rejected err) recordsRes summaryRes).1.records
        = sm.records ∧
      (Attendance.handleMarkSubmit sm (.rejected err) recordsRes summaryRes).1.summary
        = sm.summary ∧
      (Attendance.handleMarkSubmit sm (.rejected err) recordsRes summaryRes).1.submitting
        = false) := by
  have hk1 := Employees.validationErrors_keys_of_valid sc.form hform
  have hk3 : (Attendance.markValidationErrors sm.markForm).keys = [] := by
    rw [Attendance.markValidationErrors_keys, hmark]; rfl
  refine ⟨?_, ?_, ?_⟩
  · simp [Employees.handleSubmit, Employees.validateForm, hk1, detailOr_eq_notifiedText]
  · simp [Employees.handleDelete, htarget, detailOr_eq_notifiedText]
  · simp [Attendance.handleMarkSubmit, Attendance.validateMarkForm, hk3,
      detailOr_eq_notifiedText]

/-- C11 at the sample pages with the payload `detail = "Employee ID already exists"`. -/
theorem mutation_rejection_keeps_state_witness :
    Employees.offendingFields (Employees.sampleState Employees.jane).form = [] ∧
    errorToastsOf (Employees.handleSubmit (Employees.sampleState Employees.jane)
        (.rejected Employees.sampleError) (.resolved [])).2 = ["Employee ID already exists"] ∧
    errorToastsOf (Employees.handleDelete Employees.sampleConfirming
        (.rejected ⟨none⟩) (.resolved [])).2 = ["Failed to delete employee"] :=
  ⟨by decide,
    by
      rw [(mutation_rejection_keeps_state (Employees.sampleState Employees.jane)
        Employees.sampleConfirming Employees.jane Attendance.sampleMarking
        Employees.sampleError (.resolved []) (.resolved []) (.resolved Attendance.janeSummary)
        (by decide) (by decide) (by decide)).1.1]
      decide,
    by decide⟩

/-! ## Primary fetches and the page body -/

theorem errorShown_some_notifiedText (err : ApiError) (generic : String) (h : generic ≠ "") :
    errorShown (some (notifiedText err generic)) = true :=
  truthy_notifiedText err generic h

theorem Dashboard.dashboard_render_kind (s : Dashboard.State) :
    (Dashboard.render s).kind =
      if s.loading then .skeleton else if errorShown s.error then .errorView else .content := by
  unfold Dashboard.render errorShown
  cases s.loading <;> cases s.error with
  | none => simp [Dashboard.body, Dashboard.View.kind]
  | some msg => cases h : truthy msg <;> simp [Dashboard.body, Dashboard.View.kind, h]

theorem Employees.employees_render_kind (s : Employees.State) :
    (Employees.render s).kind =
      if s.loading then .skeleton else if errorShown s.error then .errorView else .content := by
  unfold Employees.render errorShown
  cases s.loading <;> cases s.error with
  | none => simp [Employees.body, Employees.View.kind]
  | some msg => cases h : truthy msg <;> simp [Employees.body, Employees.View.kind, h]

theorem Attendance.body_kind (s : Attendance.State) : (Attendance.body s).kind = .content := by
  unfold Attendance.body
  cases h : s.employees.length == 0 <;> simp [Attendance.View.kind]

theorem Attendance.attendance_render_kind (s : Attendance.State) :
    (Attendance.render s).kind =
      if s.loading then .skeleton else if errorShown s.error then .errorView else .content := by
  unfold Attendance.render errorShown
  cases s.loading with
  | true => rfl
  | false =>
    cases s.error with
    | none => simpa using Attendance.body_kind s
    | some msg =>
      cases h : truthy msg
      · simpa [h] using Attendance.body_kind s
      · simp [h, Attendance.View.kind]

/-- C12: on each page, whatever the prior state, once the primary fetch has completed the
page shows the error view exactly when the request rejected, with the payload's `detail`
when that is a non-empty string and the page's generic message otherwise, and the
content built from the response body exactly when it resolved; and in every state the
page is the skeleton while `loading`, else the error view while an error is set, else
the content. -/
theorem primary_fetch_decides_view (sd : Dashboard.State) (rd : Outcome DashboardSummary)
    (se : Employees.State) (sa : Attendance.State) (rl : Outcome (List Employee)) :
    (Dashboard.render (Dashboard.fetchDashboard sd rd).1 =
      match rd with
      | .resolved d => Dashboard.body { data := some d, loading := false, error := none }
      | .rejected err => .error (notifiedText err "Failed to load dashboard data")) ∧
    (Employees.render (Employees.fetchEmployees se rl).1 =
      match rl with
      | .resolved d => Employees.body { se with employees := d, loading := false, error := none }
      | .rejected err => .error (notifiedText err "Failed to load employees")) ∧
    (Attendance.render (Attendance.fetchEmployees sa rl).1 =
      match rl with
      | .resolved d => Attendance.body { sa with employees := d, loading := false, error := none }
      | .rejected err => .error (notifiedText err "Failed to load employees")) ∧
    ((Dashboard.render (Dashboard.fetchDashboard sd rd).1).kind =
      match rd with
      | .resolved _ => ViewKind.content
      | .rejected _ => ViewKind.errorView) ∧
    ((Employees.render (Employees.fetchEmployees se rl).1).kind =
      match rl with
      | .resolved _ => ViewKind.content
      | .rejected _ => ViewKind.errorView) ∧
    ((Attendance.render (Attendance.fetchEmployees sa rl).1).kind =
      match rl with
      | .resolved _ => ViewKind.content
      | .rejected _ => ViewKind.errorView) ∧
    ((Dashboard.render sd).kind =
      if sd.loading then .skeleton else if errorShown sd.error then .errorView else .content) ∧
    ((Employees.render se).kind =
      if se.loading then .skeleton else if errorShown se.error then .errorView else .content) ∧
    ((Attendance.render sa).kind =
      if sa.loading then .skeleton else if errorShown sa.error then .errorView else .content) := by
  have hd : ∀ err, truthy (notifiedText err "Failed to load dashboard data") = true :=
    fun err => truthy_notifiedText err _ (by decide)
  have he : ∀ err, truthy (notifiedText err "Failed to load employees") = true :=
    fun err => truthy_notifiedText err _ (by decide)
  refine ⟨?_, ?_, ?_, ?_, ?_, ?_, Dashboard.dashboard_render_kind sd, Employees.employees_render_kind se,
    Attendance.attendance_render_kind sa⟩
  · cases rd with
    | resolved d =>
      simp [Dashboard.fetchDashboard, Dashboard.fetchDashboardStart,
        Dashboard.fetchDashboardSettle, Dashboard.render, Dashboard.body]
    | rejected err =>
      simp [Dashboard.fetchDashboard, Dashboard.fetchDashboardStart,
        Dashboard.fetchDashboardSettle, Dashboard.render, detailOr_eq_notifiedText, hd]
  · cases rl with
    | resolved d => simp [Employees.fetchEmployees, Employees.render, Employees.body]
    | rejected err =>
      simp [Employees.fetchEmployees, Employees.render, detailOr_eq_notifiedText, he]
  · cases rl with
    | resolved d =>
      simp [Attendance.fetchEmployees, Attendance.render, Attendance.body,
        Attendance.summaryCards, Attendance.recordsView]
    | rejected err =>
      simp [Attendance.fetchEmployees, Attendance.render, detailOr_eq_notifiedText, he]
  · rw [Dashboard.dashboard_render_kind]
    cases rd with
    | resolved d =>
      simp [Dashboard.fetchDashboard, Dashboard.fetchDashboardStart,
        Dashboard.fetchDashboardSettle, errorShown]
    | rejected err =>
      simp [Dashboard.fetchDashboard, Dashboard.fetchDashboardStart,
        Dashboard.fetchDashboardSettle, errorShown, detailOr_eq_notifiedText, hd]
  · rw [Employees.employees_render_kind]
    cases rl with
    | resolved d => simp [Employees.fetchEmployees, errorShown]
    | rejected err => simp [Employees.fetchEmployees, errorShown, detailOr_eq_notifiedText, he]
  · rw [Attendance.attendance_render_kind]
    cases rl with
    | resolved d => simp [Attendance.fetchEmployees, errorShown]
    | rejected err => simp [Attendance.fetchEmployees, errorShown, detailOr_eq_notifiedText, he]

/-! ## The API client -/

/-- C13: every function of the API client hands exactly one request to the HTTP instance,
with the method and path of the interface table, the identifier spliced into the path,
`params` as the query of `getByEmployee` and `data` as the body of `create` and `mark`;
the instance has base path `/api`, a timeout of 10000 ms and the JSON content type. -/
theorem api_client_requests :
    employeeAPI.getAll =
      { client := api, method := .GET, url := "/employees", params := none, data := none } ∧
    (∀ id : String, employeeAPI.getById id =
      { client := api, method := .GET, url := "/employees/" ++ id, params := none,
        data := none }) ∧
    (∀ data : Employee, employeeAPI.create data =
      { client := api, method := .POST, url := "/employees", params := none,
        data := some (.employee data) }) ∧
    (∀ id : String, employeeAPI.delete id =
      { client := api, method := .DELETE, url := "/employees/" ++ id, params := none,
        data := none }) ∧
    (∀ (id : String) (params : JsObject), attendanceAPI.getByEmployee id params =
      { client := api, method := .GET, url := "/employees/" ++ id ++ "/attendance",
        params := some params, data := none }) ∧
    (∀ (id : String) (data : MarkData), attendanceAPI.mark id data =
      { client := api, method := .POST, url := "/employees/" ++ id ++ "/attendance",
        params := none, data := some (.mark data) }) ∧
    (∀ id : String, attendanceAPI.getSummary id =
      { client := api, method := .GET, url := "/employees/" ++ id ++ "/attendance/summary",
        params := none, data := none }) ∧
    dashboardAPI.getSummary =
      { client := api, method := .GET, url := "/dashboard", params := none, data := none } ∧
    api.baseURL = "/api" ∧ api.timeout = 10000 ∧
    api.headers.get "Content-Type" = some "application/json" ∧
    (∀ c : ApiCall, requestsOf [.call c] = [c.request]) := by
  refine ⟨rfl, fun _ => rfl, fun _ => rfl, fun _ => rfl, fun _ _ => rfl, fun _ _ => rfl,
    fun _ => rfl, rfl, rfl, rfl, by decide, fun _ => rfl⟩

/-! ## The date bounds of a records request -/

namespace Attendance

theorem rangeParams_eq (fromDate toDate : String) :
    rangeParams fromDate toDate =
      (if truthy fromDate then [("date_from", fromDate)] else []) ++
        (if truthy toDate then [("date_to", toDate)] else []) := by
  unfold rangeParams
  cases truthy fromDate <;> cases truthy toDate <;> simp [JsObject.assign]

/-- C14: for a non-empty employee id, `fetchRecords` issues one records request, whose
query object is the one built from the two bounds: it has `date_from` exactly when the
first bound is non-empty and `date_to` exactly when the second is, each with the bound
unchanged, each at most once and no other key; with both bounds empty it is empty. -/
theorem records_request_bounds (s : State) (empId fromDate toDate : String)
    (recordsRes : Outcome (List AttendanceRecord)) (summaryRes : Outcome AttendanceSummary)
    (h : truthy empId = true) :
    recordsCalls (fetchRecords s empId fromDate toDate recordsRes summaryRes).2 =
      [.attendanceGetByEmployee empId (rangeParams fromDate toDate)] ∧
    (ApiCall.attendanceGetByEmployee empId (rangeParams fromDate toDate)).request.params =
      some (rangeParams fromDate toDate) ∧
    (rangeParams fromDate toDate).get "date_from" =
      (if truthy fromDate then some fromDate else none) ∧
    (rangeParams fromDate toDate).get "date_to" =
      (if truthy toDate then some toDate else none) ∧
    (rangeParams fromDate toDate).keys =
      (if truthy fromDate then ["date_from"] else []) ++
        (if truthy toDate then ["date_to"] else []) ∧
    rangeParams "" "" = [] := by
  refine ⟨?_, rfl, ?_, ?_, ?_, rangeParams_empty⟩
  · unfold recordsCalls
    rw [callsOf_fetchRecords s empId fromDate toDate recordsRes summaryRes h]
    simp [ApiCall.isRecords]
  · rw [rangeParams_eq]
    cases truthy fromDate <;> cases truthy toDate <;> simp [JsObject.get]
  · rw [rangeParams_eq]
    cases truthy fromDate <;> cases truthy toDate <;> simp [JsObject.get]
  · rw [rangeParams_eq]
    cases truthy fromDate <;> cases truthy toDate <;> simp [JsObject.keys]

/-- C14 with only the upper bound given. -/
theorem records_request_bounds_witness :
    truthy "EMP001" = true ∧
    recordsCalls (fetchRecords sampleSelected "EMP001" "" "2024-01-31" (.resolved [])
        (.resolved janeSummary)).2 =
      [.attendanceGetByEmployee "EMP001" [("date_to", "2024-01-31")]] ∧
    (rangeParams "" "2024-01-31").get "date_from" = none :=
  ⟨by decide,
    (records_request_bounds sampleSelected "EMP001" "" "2024-01-31" (.resolved [])
      (.resolved janeSummary) (by decide)).1,
    by decide⟩

end Attendance

/-! ## Lists are only replaced by fetched bodies -/

namespace Employees

theorem fetchEmployees_employees (s : State) (listRes : Outcome (List Employee)) :
    (fetchEmployees s listRes).1.employees = s.employees ∨
      ∃ d, listRes = .resolved d ∧
        ApiCall.employeeGetAll ∈ callsOf (fetchEmployees s listRes).2 ∧
        (fetchEmployees s listRes).1.employees = d := by
  cases listRes with
  | resolved d => exact Or.inr ⟨d, rfl, by simp [fetchEmployees, callsOf], rfl⟩
  | rejected err => exact Or.inl rfl

theorem handleSubmit_employees (s : State) (createRes : Outcome Unit)
    (listRes : Outcome (List Employee)) :
    (handleSubmit s createRes listRes).1.employees = s.employees ∨
      ∃ d, listRes = .resolved d ∧
        ApiCall.employeeGetAll ∈ callsOf (handleSubmit s createRes listRes).2 ∧
        (handleSubmit s createRes listRes).1.employees = d := by
  by_cases hk : (validationErrors s.form).keys = []
  · cases createRes with
    | rejected err =>
      exact Or.inl (by simp [handleSubmit, validateForm, hk])
    | resolved u =>
      cases listRes with
      | rejected err =>
        exact Or.inl (by simp [handleSubmit, validateForm, hk, fetchEmployees, resetForm])
      | resolved d =>
        refine Or.inr ⟨d, rfl, ?_, ?_⟩
        · simp [handleSubmit, validateForm, hk, fetchEmployees, callsOf]
        · simp [handleSubmit, validateForm, hk, fetchEmployees]
  · exact Or.inl (by simp [handleSubmit, validateForm, hk])

theorem handleDelete_employees (s : State) (deleteRes : Outcome Unit)
    (listRes : Outcome (List Employee)) :
    (handleDelete s deleteRes listRes).1.employees = s.employees ∨
      ∃ d, listRes = .resolved d ∧
        ApiCall.employeeGetAll ∈ callsOf (handleDelete s deleteRes listRes).2 ∧
        (handleDelete s deleteRes listRes).1.employees = d := by
  cases ht : s.deleteTarget with
  | none => exact Or.inl (by simp [handleDelete, ht])
  | some t =>
    cases deleteRes with
    | rejected err => exact Or.inl (by simp [handleDelete, ht])
    | resolved u =>
      cases listRes with
      | rejected err => exact Or.inl (by simp [handleDelete, ht, fetchEmployees])
      | resolved d =>
        refine Or.inr ⟨d, rfl, ?_, ?_⟩
        · simp [handleDelete, ht, fetchEmployees, callsOf]
        · simp [handleDelete, ht, fetchEmployees]

theorem step_employees (s : State) (a : Action) :
    (step s a).1.employees = s.employees ∨
      ∃ d, a.listOutcome = some (.resolved d) ∧
        ApiCall.employeeGetAll ∈ callsOf (step s a).2 ∧ (step s a).1.employees = d := by
  cases a with
  | mount listRes =>
    rcases fetchEmployees_employees s listRes with h | ⟨d, h1, h2, h3⟩
    · exact Or.inl h
    · exact Or.inr ⟨d, by rw [h1]; rfl, h2, h3⟩
  | retry listRes =>
    rcases fetchEmployees_employees s listRes with h | ⟨d, h1, h2, h3⟩
    · exact Or.inl h
    · exact Or.inr ⟨d, by rw [h1]; rfl, h2, h3⟩
  | openAdd => exact Or.inl rfl
  | closeAdd => exact Or.inl rfl
  | edit f v => cases f <;> exact Or.inl rfl
  | submit createRes listRes =>
    rcases handleSubmit_employees s createRes listRes with h | ⟨d, h1, h2, h3⟩
    · exact Or.inl h
    · exact Or.inr ⟨d, by rw [h1]; rfl, h2, h3⟩
  | clickDelete emp => exact Or.inl rfl
  | cancelDelete => exact Or.inl rfl
  | confirmDelete deleteRes listRes =>
    rcases handleDelete_employees s deleteRes listRes with h | ⟨d, h1, h2, h3⟩
    · exact Or.inl h
    · exact Or.inr ⟨d, by rw [h1]; rfl, h2, h3⟩

theorem run_cons_fst (s : State) (a : Action) (rest : List Action) :
    (run s (a :: rest)).1 = (run (step s a).1 rest).1 := rfl

theorem run_employees (s : State) (acts : List Action) :
    (run s acts).1.employees = s.employees ∨
      ∃ pre a post d, acts = pre ++ a :: post ∧ a.listOutcome = some (.resolved d) ∧
        ApiCall.employeeGetAll ∈ callsOf (step (run s pre).1 a).2 ∧
        (run s acts).1.employees = d := by
  induction acts generalizing s with
  | nil => exact Or.inl rfl
  | cons a rest ih =>
    rw [run_cons_fst]
    rcases ih (step s a).1 with h | ⟨pre, b, post, d, hacts, hout, hmem, hfin⟩
    · rcases step_employees s a with h0 | ⟨d, hout, hmem, hd⟩
      · exact Or.inl (h.trans h0)
      · exact Or.inr ⟨[], a, rest, d, rfl, hout, hmem, h.trans hd⟩
    · refine Or.inr ⟨a :: pre, b, post, d, by rw [hacts]; rfl, hout, ?_, hfin⟩
      rw [run_cons_fst]
      exact hmem

end Employees

namespace Attendance

theorem attendance_fetchEmployees_employees (s : State) (listRes : Outcome (List Employee)) :
    (fetchEmployees s listRes).1.employees = s.employees ∨
      ∃ d, listRes = .resolved d ∧
        ApiCall.employeeGetAll ∈ callsOf (fetchEmployees s listRes).2 ∧
        (fetchEmployees s listRes).1.employees = d := by
  cases listRes with
  | resolved d => exact Or.inr ⟨d, rfl, by simp [fetchEmployees, callsOf], rfl⟩
  | rejected err => exact Or.inl rfl

theorem fetchRecords_employees (s : State) (empId fromDate toDate : String)
    (recordsRes : Outcome (List AttendanceRecord)) (summaryRes : Outcome AttendanceSummary) :
    (fetchRecords s empId fromDate toDate recordsRes summaryRes).1.employees = s.employees := by
  unfold fetchRecords
  cases truthy empId <;> cases recordsRes <;> cases summaryRes <;> rfl

theorem handleMarkSubmit_employees (s : State) (markRes : Outcome Unit)
    (recordsRes : Outcome (List AttendanceRecord)) (summaryRes : Outcome AttendanceSummary) :
    (handleMarkSubmit s markRes recordsRes summaryRes).1.employees = s.employees := by
  by_cases hk : (markValidationErrors s.markForm).keys = []
  · cases markRes with
    | rejected err => simp [handleMarkSubmit, validateMarkForm, hk]
    | resolved u =>
      by_cases hsel : s.selectedEmployee = s.markForm.employee_id
      · simp [handleMarkSubmit, validateMarkForm, hk, hsel, fetchRecords_employees]
      · simp [handleMarkSubmit, validateMarkForm, hk, hsel]
  · simp [handleMarkSubmit, validateMarkForm, hk]

theorem attendance_step_employees (s : State) (a : Action) :
    (step s a).1.employees = s.employees ∨
      ∃ d, a.listOutcome = some (.resolved d) ∧
        ApiCall.employeeGetAll ∈ callsOf (step s a).2 ∧ (step s a).1.employees = d := by
  cases a with
  | mount listRes =>
    rcases attendance_fetchEmployees_employees s listRes with h | ⟨d, h1, h2, h3⟩
    · exact Or.inl h
    · exact Or.inr ⟨d, by rw [h1]; rfl, h2, h3⟩
  | retry listRes =>
    rcases attendance_fetchEmployees_employees s listRes with h | ⟨d, h1, h2, h3⟩
    · exact Or.inl h
    · exact Or.inr ⟨d, by rw [h1]; rfl, h2, h3⟩
  | selectEmployee empId recordsRes summaryRes =>
    exact Or.inl (by simp [step, handleEmployeeChange, fetchRecords_employees])
  | typeDateFrom v => exact Or.inl rfl
  | typeDateTo v => exact Or.inl rfl
  | applyFilter recordsRes summaryRes =>
    refine Or.inl ?_
    simp only [step, handleFilter]
    cases truthy s.selectedEmployee <;> simp [fetchRecords_employees]
  | clearFilter recordsRes summaryRes =>
    refine Or.inl ?_
    simp only [step, handleClearFilter]
    cases truthy s.selectedEmployee <;> simp [fetchRecords_employees]
  | openMark today => exact Or.inl rfl
  | closeMark => exact Or.inl rfl
  | editMark form => exact Or.inl rfl
  | submitMark markRes recordsRes summaryRes =>
    exact Or.inl (handleMarkSubmit_employees s markRes recordsRes summaryRes)

theorem attendance_run_cons_fst (s : State) (a : Action) (rest : List Action) :
    (run s (a :: rest)).1 = (run (step s a).1 rest).1 := rfl

theorem attendance_run_employees (s : State) (acts : List Action) :
    (run s acts).1.employees = s.employees ∨
      ∃ pre a post d, acts = pre ++ a :: post ∧ a.listOutcome = some (.resolved d) ∧
        ApiCall.employeeGetAll ∈ callsOf (step (run s pre).1 a).2 ∧
        (run s acts).1.employees = d := by
  induction acts generalizing s with
  | nil => exact Or.inl rfl
  | cons a rest ih =>
    rw [attendance_run_cons_fst]
    rcases ih (step s a).1 with h | ⟨pre, b, post, d, hacts, hout, hmem, hfin⟩
    · rcases attendance_step_employees s a with h0 | ⟨d, hout, hmem, hd⟩
      · exact Or.inl (h.trans h0)
      · exact Or.inr ⟨[], a, rest, d, rfl, hout, hmem, h.trans hd⟩
    · refine Or.inr ⟨a :: pre, b, post, d, by rw [hacts]; rfl, hout, ?_, hfin⟩
      rw [attendance_run_cons_fst]
      exact hmem

theorem fetchRecords_pair (s : State) (empId fromDate toDate : String)
    (recordsRes : Outcome (List AttendanceRecord)) (summaryRes : Outcome AttendanceSummary) :
    SamePair s (fetchRecords s empId fromDate toDate recordsRes summaryRes).1 ∨
    (truthy empId = false ∧
      ResetPair (fetchRecords s empId fromDate toDate recordsRes summaryRes).1) ∨
    FetchedPair (fetchRecords s empId fromDate toDate recordsRes summaryRes).1
      (fetchRecords s empId fromDate toDate recordsRes summaryRes).2
      (jointBodies recordsRes summaryRes) := by
  cases h : truthy empId with
  | false =>
    refine Or.inr (Or.inl ⟨rfl, ?_⟩)
    simp [fetchRecords, h, ResetPair]
  | true =>
    rw [fetchRecords_of_truthy s empId fromDate toDate recordsRes summaryRes h]
    cases recordsRes with
    | resolved recs =>
      cases summaryRes with
      | resolved summ =>
        refine Or.inr (Or.inr ⟨recs, summ, rfl, ?_, ?_, rfl, rfl⟩)
        · simp [callsOf, ApiCall.isRecords]
        · simp [callsOf, ApiCall.isSummary]
      | rejected e => exact Or.inl ⟨rfl, rfl⟩
    | rejected e =>
      cases summaryRes with
      | resolved summ => exact Or.inl ⟨rfl, rfl⟩
      | rejected e2 => exact Or.inl ⟨rfl, rfl⟩

theorem handleMarkSubmit_pair (s : State) (markRes : Outcome Unit)
    (recordsRes : Outcome (List AttendanceRecord)) (summaryRes : Outcome AttendanceSummary) :
    SamePair s (handleMarkSubmit s markRes recordsRes summaryRes).1 ∨
    FetchedPair (handleMarkSubmit s markRes recordsRes summaryRes).1
      (handleMarkSubmit s markRes recordsRes summaryRes).2
      (jointBodies recordsRes summaryRes) := by
  by_cases hk : (markValidationErrors s.markForm).keys = []
  · cases markRes with
    | rejected err =>
      exact Or.inl (by simp [handleMarkSubmit, validateMarkForm, hk, SamePair])
    | resolved u =>
      by_cases hsel : s.selectedEmployee = s.markForm.employee_id
      · have hempty : emptyFields s.markForm = [] := by
          have := markValidationErrors_keys s.markForm
          rw [hk] at this
          exact List.map_eq_nil_iff.1 this.symm
        have hid : truthy s.markForm.employee_id = true := by
          cases ht : truthy s.markForm.employee_id
          · have : MarkField.employee_id ∈ emptyFields s.markForm := by
              simp [emptyFields, MarkField.value, ht]
            rw [hempty] at this
            cases this
          · rfl
        have hsel2 : truthy s.selectedEmployee = true := by rw [hsel]; exact hid
        cases recordsRes with
        | resolved recs =>
          cases summaryRes with
          | resolved summ =>
            refine Or.inr ⟨recs, summ, rfl, ?_, ?_, ?_, ?_⟩ <;>
              simp [handleMarkSubmit, validateMarkForm, hk, hsel, fetchRecords, hid,
                callsOf, ApiCall.isRecords, ApiCall.isSummary]
          | rejected e =>
            exact Or.inl (by
              simp [handleMarkSubmit, validateMarkForm, hk, hsel, fetchRecords, hid, SamePair])
        | rejected e =>
          exact Or.inl (by
            cases summaryRes <;>
              simp [handleMarkSubmit, validateMarkForm, hk, hsel, fetchRecords, hid, SamePair])
      · exact Or.inl (by simp [handleMarkSubmit, validateMarkForm, hk, hsel, SamePair])
  · exact Or.inl (by simp [handleMarkSubmit, validateMarkForm, hk, SamePair])

theorem fetchEmployees_pair (s : State) (listRes : Outcome (List Employee)) :
    SamePair s (fetchEmployees s listRes).1 := by
  cases listRes <;> exact ⟨rfl, rfl⟩

theorem step_pair (s : State) (a : Action) :
    SamePair s (step s a).1 ∨ ResetPair (step s a).1 ∨
      FetchedPair (step s a).1 (step s a).2 a.fetchedPair := by
  cases a with
  | mount listRes => exact Or.inl (fetchEmployees_pair s listRes)
  | retry listRes => exact Or.inl (fetchEmployees_pair s listRes)
  | selectEmployee empId recordsRes summaryRes =>
    rcases fetchRecords_pair { s with selectedEmployee := empId, dateFrom := "", dateTo := "" }
      empId "" "" recordsRes summaryRes with h | ⟨_, h⟩ | h
    · exact Or.inl h
    · exact Or.inr (Or.inl h)
    · exact Or.inr (Or.inr h)
  | typeDateFrom v => exact Or.inl ⟨rfl, rfl⟩
  | typeDateTo v => exact Or.inl ⟨rfl, rfl⟩
  | applyFilter recordsRes summaryRes =>
    cases hs : truthy s.selectedEmployee with
    | false => exact Or.inl (by simp [step, handleFilter, hs, SamePair])
    | true =>
      rcases fetchRecords_pair s s.selectedEmployee s.dateFrom s.dateTo recordsRes summaryRes
        with h | ⟨_, h⟩ | h
      · exact Or.inl (by simpa [step, handleFilter, hs] using h)
      · exact Or.inr (Or.inl (by simpa [step, handleFilter, hs] using h))
      · exact Or.inr (Or.inr (by simpa [step, handleFilter, hs, Action.fetchedPair] using h))
  | clearFilter recordsRes summaryRes =>
    cases hs : truthy s.selectedEmployee with
    | false => exact Or.inl (by simp [step, handleClearFilter, hs, SamePair])
    | true =>
      rcases fetchRecords_pair { s with dateFrom := "", dateTo := "" } s.selectedEmployee "" ""
        recordsRes summaryRes with h | ⟨_, h⟩ | h
      · exact Or.inl (by simpa [step, handleClearFilter, hs, SamePair] using h)
      · exact Or.inr (Or.inl (by simpa [step, handleClearFilter, hs] using h))
      · exact Or.inr (Or.inr (by
          simpa [step, handleClearFilter, hs, Action.fetchedPair] using h))
  | openMark today => exact Or.inl ⟨rfl, rfl⟩
  | closeMark => exact Or.inl ⟨rfl, rfl⟩
  | editMark form => exact Or.inl ⟨rfl, rfl⟩
  | submitMark markRes recordsRes summaryRes =>
    rcases handleMarkSubmit_pair s markRes recordsRes summaryRes with h | h
    · exact Or.inl h
    · exact Or.inr (Or.inr h)

theorem run_pair (s : State) (acts : List Action) :
    SamePair s (run s acts).1 ∨ ResetPair (run s acts).1 ∨
      ∃ pre a post, acts = pre ++ a :: post ∧
        FetchedPair (run s acts).1 (step (run s pre).1 a).2 a.fetchedPair := by
  induction acts generalizing s with
  | nil => exact Or.inl ⟨rfl, rfl⟩
  | cons a rest ih =>
    rw [attendance_run_cons_fst]
    rcases ih (step s a).1 with h | h | ⟨pre, b, post, hacts, hf⟩
    · rcases step_pair s a with h0 | h0 | h0
      · exact Or.inl ⟨h.1.trans h0.1, h.2.trans h0.2⟩
      · exact Or.inr (Or.inl ⟨h.1.trans h0.1, h.2.trans h0.2⟩)
      · obtain ⟨recs, summ, hb, hr, hsm, h1, h2⟩ := h0
        exact Or.inr (Or.inr ⟨[], a, rest, rfl, recs, summ, hb, hr, hsm, h.1.trans h1,
          h.2.trans h2⟩)
    · exact Or.inr (Or.inl h)
    · refine Or.inr (Or.inr ⟨a :: pre, b, post, by rw [hacts]; rfl, ?_⟩)
      rw [attendance_run_cons_fst]
      exact hf

end Attendance

/-- C15: lists are never patched in place.  From the first render and over any sequence
of user actions, the `employees` list of the Employees page and of the Attendance page
is the empty list or the body of a resolved list request that an earlier action issued,
and `records` with `summary` are `[]` with `null` or the two bodies of a jointly resolved
combined fetch that an earlier action issued; `handleSubmit`, `handleDelete` and
`handleMarkSubmit` leave these values as they are except through such a fetch. -/
theorem lists_only_from_fetches :
    (∀ acts : List Employees.Action,
      (Employees.run Employees.State.initial acts).1.employees = [] ∨
      ∃ pre a post d, acts = pre ++ a :: post ∧ a.listOutcome = some (.resolved d) ∧
        ApiCall.employeeGetAll ∈
          callsOf (Employees.step (Employees.run Employees.State.initial pre).1 a).2 ∧
        (Employees.run Employees.State.initial acts).1.employees = d) ∧
    (∀ (today : String) (acts : List Attendance.Action),
      (Attendance.run (Attendance.State.initial today) acts).1.employees = [] ∨
      ∃ pre a post d, acts = pre ++ a :: post ∧ a.listOutcome = some (.resolved d) ∧
        ApiCall.employeeGetAll ∈
          callsOf (Attendance.step
            (Attendance.run (Attendance.State.initial today) pre).1 a).2 ∧
        (Attendance.run (Attendance.State.initial today) acts).1.employees = d) ∧
    (∀ (today : String) (acts : List Attendance.Action),
      Attendance.ResetPair (Attendance.run (Attendance.State.initial today) acts).1 ∨
      ∃ pre a post, acts = pre ++ a :: post ∧
        Attendance.FetchedPair (Attendance.run (Attendance.State.initial today) acts).1
          (Attendance.step (Attendance.run (Attendance.State.initial today) pre).1 a).2
          a.fetchedPair) ∧
    (∀ (s : Employees.State) (createRes : Outcome Unit) (listRes : Outcome (List Employee)),
      (Employees.handleSubmit s createRes listRes).1.employees = s.employees ∨
      ∃ d, listRes = .resolved d ∧
        ApiCall.employeeGetAll ∈ callsOf (Employees.handleSubmit s createRes listRes).2 ∧
        (Employees.handleSubmit s createRes listRes).1.employees = d) ∧
    (∀ (s : Employees.State) (deleteRes : Outcome Unit) (listRes : Outcome (List Employee)),
      (Employees.handleDelete s deleteRes listRes).1.employees = s.employees ∨
      ∃ d, listRes = .resolved d ∧
        ApiCall.employeeGetAll ∈ callsOf (Employees.handleDelete s deleteRes listRes).2 ∧
        (Employees.handleDelete s deleteRes listRes).1.employees = d) ∧
    (∀ (s : Attendance.State) (markRes : Outcome Unit)
        (recordsRes : Outcome (List AttendanceRecord)) (summaryRes : Outcome AttendanceSummary),
      (Attendance.handleMarkSubmit s markRes recordsRes summaryRes).1.employees = s.employees ∧
      (Attendance.SamePair s (Attendance.handleMarkSubmit s markRes recordsRes summaryRes).1 ∨
        Attendance.FetchedPair (Attendance.handleMarkSubmit s markRes recordsRes summaryRes).1
          (Attendance.handleMarkSubmit s markRes recordsRes summaryRes).2
          (Attendance.jointBodies recordsRes summaryRes))) := by
  refine ⟨fun acts => Employees.run_employees _ acts,
    fun today acts => Attendance.attendance_run_employees _ acts, ?_,
    Employees.handleSubmit_employees, Employees.handleDelete_employees,
    fun s m r u => ⟨Attendance.handleMarkSubmit_employees s m r u,
      Attendance.handleMarkSubmit_pair s m r u⟩⟩
  intro today acts
  rcases Attendance.run_pair (Attendance.State.initial today) acts with h | h | h
  · exact Or.inl ⟨h.1, h.2⟩
  · exact Or.inl h
  · exact Or.inr h

/-! ## The modal -/

namespace Modal

theorem rerender_count (id : Nat) (isOpen nextOpen onCloseChanged : Bool) (d : Document)
    (h : d.keydownListeners.count id = if isOpen then 1 else 0) :
    (rerender id nextOpen (nextOpen != isOpen || onCloseChanged) d).keydownListeners.count id
      = if nextOpen then 1 else 0 := by
  unfold rerender
  by_cases hdeps : (nextOpen != isOpen || onCloseChanged) = true
  · rw [if_pos hdeps]
    have hc : (cleanup id d).keydownListeners.count id = 0 := by
      simp only [cleanup, List.count_erase_self, h]
      cases isOpen <;> simp
    unfold effect
    cases nextOpen
    · simpa using hc
    · simp [hc]
  · rw [if_neg hdeps]
    have hsame : nextOpen = isOpen := by
      cases nextOpen <;> cases isOpen <;> simp at hdeps ⊢
    rw [hsame]
    exact h

theorem renders_count (id : Nat) (later : List (Bool × Bool)) :
    ∀ (isOpen : Bool) (d : Document),
      d.keydownListeners.count id = (if isOpen then 1 else 0) →
      (renders id isOpen d later).2.keydownListeners.count id
        = if (renders id isOpen d later).1 then 1 else 0 := by
  induction later with
  | nil => intro isOpen d h; exact h
  | cons r rest ih =>
    intro isOpen d h
    obtain ⟨nextOpen, onCloseChanged⟩ := r
    exact ih nextOpen _ (rerender_count id isOpen nextOpen onCloseChanged d h)

theorem mounted_count (id : Nat) (isOpen : Bool) (later : List (Bool × Bool)) :
    (mounted id isOpen later).2.keydownListeners.count id
      = if (mounted id isOpen later).1 then 1 else 0 := by
  unfold mounted
  apply renders_count
  cases isOpen <;> simp [effect, Document.initial]

end Modal

/-- C16: the modal renders nothing exactly when `isOpen` is false; and after its mount
and any number of later renders, a gesture invokes `onClose` once if the modal is open
and the gesture is an Escape key-press, a backdrop click or a close-button click, and
not at all if the key is another one or the modal is closed. -/
theorem modal_close_gestures :
    (∀ isOpen : Bool, Modal.render isOpen = none ↔ isOpen = false) ∧
    (∀ (id : Nat) (isOpen : Bool) (later : List (Bool × Bool)) (g : Modal.Gesture),
      Modal.onCloseCalls id (Modal.mounted id isOpen later).1
          (Modal.mounted id isOpen later).2 g =
        if (Modal.mounted id isOpen later).1 then
          match g with
          | .keydown key => if key = "Escape" then 1 else 0
          | .click _ => 1
        else 0) := by
  refine ⟨?_, ?_⟩
  · intro isOpen
    cases isOpen <;> simp [Modal.render]
  · intro id isOpen later g
    have hc := Modal.mounted_count id isOpen later
    cases g with
    | keydown key =>
      simp only [Modal.onCloseCalls, hc, Modal.handleEsc]
      cases (Modal.mounted id isOpen later).1 <;> simp
    | click target =>
      simp only [Modal.onCloseCalls, Modal.render]
      cases (Modal.mounted id isOpen later).1 <;> cases target <;> simp

/-! ## Validation errors -/

theorem Employees.handleSubmit_formErrors (s : Employees.State) (createRes : Outcome Unit)
    (listRes : Outcome (List Employee)) :
    (Employees.handleSubmit s createRes listRes).1.formErrors =
      Employees.validationErrors s.form := by
  by_cases hk : (Employees.validationErrors s.form).keys = []
  · have hv := JsObject.eq_nil_of_keys _ hk
    cases createRes with
    | rejected err => simp [Employees.handleSubmit, Employees.validateForm, hk]
    | resolved u =>
      cases listRes <;>
        simp [Employees.handleSubmit, Employees.validateForm, hv, JsObject.keys,
          Employees.fetchEmployees, Employees.resetForm]
  · simp [Employees.handleSubmit, Employees.validateForm, hk]

theorem Attendance.handleMarkSubmit_formErrors (s : Attendance.State) (markRes : Outcome Unit)
    (recordsRes : Outcome (List AttendanceRecord)) (summaryRes : Outcome AttendanceSummary) :
    (Attendance.handleMarkSubmit s markRes recordsRes summaryRes).1.formErrors =
      Attendance.markValidationErrors s.markForm := by
  by_cases hk : (Attendance.markValidationErrors s.markForm).keys = []
  · cases markRes with
    | rejected err => simp [Attendance.handleMarkSubmit, Attendance.validateMarkForm, hk]
    | resolved u =>
      by_cases hsel : s.selectedEmployee = s.markForm.employee_id
      · cases ht : truthy s.markForm.employee_id <;> cases recordsRes <;> cases summaryRes <;>
          simp [Attendance.handleMarkSubmit, Attendance.validateMarkForm, hk, hsel,
            Attendance.fetchRecords, ht]
      · simp [Attendance.handleMarkSubmit, Attendance.validateMarkForm, hk, hsel]
  · simp [Attendance.handleMarkSubmit, Attendance.validateMarkForm, hk]

/-- C17: after a submit attempt the error object is the one computed from the form values
of that attempt, whatever errors were stored before and whatever the outcome, on the add
form and on the mark form; editing a form field or a date input leaves the error object
as it was. -/
theorem errors_recomputed_on_submit_only :
    (∀ (s : Employees.State) (createRes : Outcome Unit) (listRes : Outcome (List Employee)),
      (Employees.handleSubmit s createRes listRes).1.formErrors =
        Employees.validationErrors s.form) ∧
    (∀ (s : Attendance.State) (markRes : Outcome Unit)
        (recordsRes : Outcome (List AttendanceRecord)) (summaryRes : Outcome AttendanceSummary),
      (Attendance.handleMarkSubmit s markRes recordsRes summaryRes).1.formErrors =
        Attendance.markValidationErrors s.markForm) ∧
    (∀ (s : Employees.State) (stale : JsObject) (createRes : Outcome Unit)
        (listRes : Outcome (List Employee)),
      (Employees.handleSubmit { s with formErrors := stale } createRes listRes).1.formErrors =
        (Employees.handleSubmit s createRes listRes).1.formErrors) ∧
    (∀ (s : Attendance.State) (stale : JsObject) (markRes : Outcome Unit)
        (recordsRes : Outcome (List AttendanceRecord)) (summaryRes : Outcome AttendanceSummary),
      (Attendance.handleMarkSubmit { s with formErrors := stale } markRes recordsRes
          summaryRes).1.formErrors =
        (Attendance.handleMarkSubmit s markRes recordsRes summaryRes).1.formErrors) ∧
    (∀ (s : Employees.State) (f : Employees.Field) (v : String),
      (Employees.setField s f v).formErrors = s.formErrors) ∧
    (∀ (s : Attendance.State) (form : Attendance.MarkForm),
      (Attendance.setMarkForm s form).formErrors = s.formErrors) ∧
    (∀ (s : Attendance.State) (v : String),
      (Attendance.setDateFrom s v).formErrors = s.formErrors ∧
      (Attendance.setDateTo s v).formErrors = s.formErrors) := by
  refine ⟨Employees.handleSubmit_formErrors, Attendance.handleMarkSubmit_formErrors, ?_, ?_,
    ?_, fun _ _ => rfl, fun _ _ => ⟨rfl, rfl⟩⟩
  · intro s stale createRes listRes
    rw [Employees.handleSubmit_formErrors, Employees.handleSubmit_formErrors]
  · intro s stale markRes recordsRes summaryRes
    rw [Attendance.handleMarkSubmit_formErrors, Attendance.handleMarkSubmit_formErrors]
  · intro s f v
    cases f <;> rfl

/-! ## Mark-attendance validation -/

namespace Attendance

theorem MarkField.markKey_injective (f g : MarkField) (h : f.key = g.key) : f = g := by
  cases f <;> cases g <;> first | rfl | (simp [MarkField.key] at h)

theorem mem_emptyFields (form : MarkForm) (f : MarkField) :
    f ∈ emptyFields form ↔ f.value form = "" := by
  unfold emptyFields
  rw [List.mem_filter, ← truthy_eq_false_iff]
  constructor
  · intro h
    simpa using h.2
  · intro h
    refine ⟨by cases f <;> simp, by simpa using h⟩

/-- C18: validation of the mark form comes before any effect.  The stored error object
has a key for exactly the empty ones among `employee_id`, `date` and `status`; if one of
them is empty `handleMarkSubmit` issues no call and no notification; if none is, the
error object is empty and exactly one mark call is issued, first of all effects, for the
form's employee id with the body made of its date and status. -/
theorem mark_validation_precedes_calls (s : State) (markRes : Outcome Unit)
    (recordsRes : Outcome (List AttendanceRecord)) (summaryRes : Outcome AttendanceSummary) :
    (handleMarkSubmit s markRes recordsRes summaryRes).1.formErrors.keys =
      (emptyFields s.markForm).map MarkField.key ∧
    (∀ f : MarkField,
      f.key ∈ (handleMarkSubmit s markRes recordsRes summaryRes).1.formErrors.keys ↔
        f.value s.markForm = "") ∧
    (if emptyFields s.markForm = [] then
      (handleMarkSubmit s markRes recordsRes summaryRes).1.formErrors = [] ∧
      markCalls (handleMarkSubmit s markRes recordsRes summaryRes).2 =
        [.attendanceMark s.markForm.employee_id
          { date := s.markForm.date, status := s.markForm.status }] ∧
      (handleMarkSubmit s markRes recordsRes summaryRes).2.head? =
        some (.call (.attendanceMark s.markForm.employee_id
          { date := s.markForm.date, status := s.markForm.status }))
    else (handleMarkSubmit s markRes recordsRes summaryRes).2 = []) := by
  have hkeys : (handleMarkSubmit s markRes recordsRes summaryRes).1.formErrors.keys =
      (emptyFields s.markForm).map MarkField.key := by
    rw [handleMarkSubmit_formErrors, markValidationErrors_keys]
  refine ⟨hkeys, ?_, ?_⟩
  · intro f
    rw [hkeys, List.mem_map, ← mem_emptyFields]
    constructor
    · rintro ⟨g, hg, hgf⟩
      rw [← MarkField.markKey_injective g f hgf]
      exact hg
    · intro hf
      exact ⟨f, hf, rfl⟩
  · by_cases he : emptyFields s.markForm = []
    · rw [if_pos he]
      have hk : (markValidationErrors s.markForm).keys = [] := by
        rw [markValidationErrors_keys, he]; rfl
      refine ⟨?_, ?_, ?_⟩
      · rw [handleMarkSubmit_formErrors]
        exact JsObject.eq_nil_of_keys _ hk
      · cases markRes with
        | rejected err =>
          simp [handleMarkSubmit, validateMarkForm, hk, markCalls, callsOf, ApiCall.isMark]
        | resolved u =>
          by_cases hsel : s.selectedEmployee = s.markForm.employee_id
          · cases ht : truthy s.markForm.employee_id <;> cases recordsRes <;>
              cases summaryRes <;>
              simp [handleMarkSubmit, validateMarkForm, hk, hsel, fetchRecords, markCalls,
                callsOf, ApiCall.isMark, ht]
          · simp [handleMarkSubmit, validateMarkForm, hk, hsel, markCalls, callsOf,
              ApiCall.isMark]
      · cases markRes with
        | rejected err => simp [handleMarkSubmit, validateMarkForm, hk]
        | resolved u => simp [handleMarkSubmit, validateMarkForm, hk]
    · rw [if_neg he]
      have hk : ¬ (markValidationErrors s.markForm).keys = [] := by
        rw [markValidationErrors_keys]
        intro h
        exact he (List.map_eq_nil_iff.1 h)
      simp [handleMarkSubmit, validateMarkForm, hk]

end Attendance

/-! ## The Dashboard content -/

namespace Dashboard

theorem countOrZero_some (d : DashboardSummary) (field : DashboardSummary → Nat) :
    countOrZero (some d) field = field d := by
  unfold countOrZero
  by_cases h : field d = 0 <;> simp [h]

theorem recentCard_some (d : DashboardSummary) :
    recentCard (some d) =
      if d.recent_employees = [] then .message "No employees added yet"
      else .rows d.recent_employees := by
  unfold recentCard
  cases h : d.recent_employees <;> simp [h]

theorem departmentCard_some (d : DashboardSummary) :
    departmentCard (some d) =
      if d.department_counts = [] then .message "No departments yet"
      else .rows d.department_counts := by
  unfold departmentCard
  cases h : d.department_counts <;> simp [h]

theorem render_fetchDashboard_resolved (s : State) (d : DashboardSummary) :
    render (fetchDashboard s (.resolved d)).1 =
      body { data := some d, loading := false, error := none } := by
  simp [fetchDashboard, fetchDashboardStart, fetchDashboardSettle, render, body]

/-- C19: once the fetch has resolved with a summary, the page shows four labelled counts
equal to the summary's four numbers; the department card has one row per entry of the
name-to-count mapping, in its order, or the message `No departments yet` exactly when the
mapping has no entry; the recent-employees card has one row per returned employee, or the
message `No employees added yet` exactly when none was returned.  The summary of an empty
system gives four zeros and both messages; the summary after the first employee gives the
count 1 and the row `Engineering: 1`. -/
theorem dashboard_content_view (s : State) (d : DashboardSummary) :
    render (fetchDashboard s (.resolved d)).1 =
      .content
        [("Total Employees", d.total_employees), ("Departments", d.total_departments),
         ("Present Today", d.present_today), ("Absent Today", d.absent_today)]
        (if d.recent_employees = [] then .message "No employees added yet"
          else .rows d.recent_employees)
        (if d.department_counts = [] then .message "No departments yet"
          else .rows d.department_counts) ∧
    render (fetchDashboard s (.resolved emptySummary)).1 =
      .content
        [("Total Employees", 0), ("Departments", 0), ("Present Today", 0), ("Absent Today", 0)]
        (.message "No employees added yet") (.message "No departments yet") ∧
    render (fetchDashboard s (.resolved oneEmployeeSummary)).1 =
      .content
        [("Total Employees", 1), ("Departments", 1), ("Present Today", 0), ("Absent Today", 0)]
        (.rows [Employees.jane]) (.rows [("Engineering", 1)]) := by
  have hgen : ∀ e : DashboardSummary, render (fetchDashboard s (.resolved e)).1 =
      .content
        [("Total Employees", e.total_employees), ("Departments", e.total_departments),
         ("Present Today", e.present_today), ("Absent Today", e.absent_today)]
        (if e.recent_employees = [] then .message "No employees added yet"
          else .rows e.recent_employees)
        (if e.department_counts = [] then .message "No departments yet"
          else .rows e.department_counts) := by
    intro e
    rw [render_fetchDashboard_resolved]
    simp only [body, stats, countOrZero_some, recentCard_some, departmentCard_some]
  refine ⟨hgen d, ?_, ?_⟩
  · rw [hgen]; rfl
  · rw [hgen]; rfl

end Dashboard

/-! ## Retrying the primary fetch -/

theorem Dashboard.fetchDashboard_outcome (s : Dashboard.State) (res : Outcome DashboardSummary) :
    (Dashboard.fetchDashboard s res).1.loading = false ∧
    (Dashboard.fetchDashboard s res).1.error =
      (match res with
      | .resolved _ => none
      | .rejected err => some (notifiedText err "Failed to load dashboard data")) ∧
    (Dashboard.render (Dashboard.fetchDashboard s res).1).kind =
      (match res with
      | .resolved _ => ViewKind.content
      | .rejected _ => ViewKind.errorView) := by
  rw [Dashboard.dashboard_render_kind]
  cases res with
  | resolved d =>
    simp [Dashboard.fetchDashboard, Dashboard.fetchDashboardStart,
      Dashboard.fetchDashboardSettle, errorShown]
  | rejected err =>
    simp [Dashboard.fetchDashboard, Dashboard.fetchDashboardStart,
      Dashboard.fetchDashboardSettle, errorShown, detailOr_eq_notifiedText,
      truthy_notifiedText err _ (by decide : "Failed to load dashboard data" ≠ "")]

theorem Employees.fetchEmployees_outcome (s : Employees.State)
    (res : Outcome (List Employee)) :
    (Employees.fetchEmployees s res).1.loading = false ∧
    (Employees.fetchEmployees s res).1.error =
      (match res with
      | .resolved _ => none
      | .rejected err => some (notifiedText err "Failed to load employees")) ∧
    (Employees.render (Employees.fetchEmployees s res).1).kind =
      (match res with
      | .resolved _ => ViewKind.content
      | .rejected _ => ViewKind.errorView) := by
  rw [Employees.employees_render_kind]
  cases res with
  | resolved d => simp [Employees.fetchEmployees, errorShown]
  | rejected err =>
    simp [Employees.fetchEmployees, errorShown, detailOr_eq_notifiedText,
      truthy_notifiedText err _ (by decide : "Failed to load employees" ≠ "")]

theorem Attendance.attendance_fetchEmployees_outcome (s : Attendance.State)
    (res : Outcome (List Employee)) :
    (Attendance.fetchEmployees s res).1.loading = false ∧
    (Attendance.fetchEmployees s res).1.error =
      (match res with
      | .resolved _ => none
      | .rejected err => some (notifiedText err "Failed to load employees")) ∧
    (Attendance.render (Attendance.fetchEmployees s res).1).kind =
      (match res with
      | .resolved _ => ViewKind.content
      | .rejected _ => ViewKind.errorView) := by
  rw [Attendance.attendance_render_kind]
  cases res with
  | resolved d => simp [Attendance.fetchEmployees, errorShown]
  | rejected err =>
    simp [Attendance.fetchEmployees, errorShown, detailOr_eq_notifiedText,
      truthy_notifiedText err _ (by decide : "Failed to load employees" ≠ "")]

/-- C20: on each page the retry action is the primary fetch of the mount.  Before the
request settles it has set `loading` and cleared `error`, so the page shows the skeleton,
and it has issued exactly the one request of the mount-time fetch; afterwards `loading`
is false and the page is in error exactly when this request rejected, with no error left
when it resolved, whatever error was shown before. -/
theorem retry_reruns_primary_fetch (sd : Dashboard.State) (rd : Outcome DashboardSummary)
    (se : Employees.State) (sa : Attendance.State) (rl : Outcome (List Employee)) :
    (Dashboard.step sd (.retry rd) = Dashboard.step sd (.mount rd) ∧
      (Dashboard.step sd (.retry rd)) =
        (Dashboard.fetchDashboardSettle (Dashboard.fetchDashboardStart sd).1 rd,
          (Dashboard.fetchDashboardStart sd).2) ∧
      (Dashboard.fetchDashboardStart sd).2 = [.call .dashboardGetSummary] ∧
      (Dashboard.fetchDashboardStart sd).1.loading = true ∧
      (Dashboard.fetchDashboardStart sd).1.error = none ∧
      Dashboard.render (Dashboard.fetchDashboardStart sd).1 = .loading ∧
      (Dashboard.step sd (.retry rd)).1.loading = false ∧
      (Dashboard.step sd (.retry rd)).1.error =
        (match rd with
        | .resolved _ => none
        | .rejected err => some (notifiedText err "Failed to load dashboard data")) ∧
      (Dashboard.render (Dashboard.step sd (.retry rd)).1).kind =
        (match rd with
        | .resolved _ => ViewKind.content
        | .rejected _ => ViewKind.errorView)) ∧
    (Employees.step se (.retry rl) = Employees.step se (.mount rl) ∧
      (Employees.step se (.retry rl)) =
        (Employees.fetchEmployeesSettle (Employees.fetchEmployeesStart se).1 rl,
          (Employees.fetchEmployeesStart se).2) ∧
      (Employees.fetchEmployeesStart se).2 = [.call .employeeGetAll] ∧
      (Employees.fetchEmployeesStart se).1.loading = true ∧
      (Employees.fetchEmployeesStart se).1.error = none ∧
      Employees.render (Employees.fetchEmployeesStart se).1 = .loading ∧
      (Employees.step se (.retry rl)).1.loading = false ∧
      (Employees.step se (.retry rl)).1.error =
        (match rl with
        | .resolved _ => none
        | .rejected err => some (notifiedText err "Failed to load employees")) ∧
      (Employees.render (Employees.step se (.retry rl)).1).kind =
        (match rl with
        | .resolved _ => ViewKind.content
        | .rejected _ => ViewKind.errorView)) ∧
    (Attendance.step sa (.retry rl) = Attendance.step sa (.mount rl) ∧
      (Attendance.step sa (.retry rl)) =
        (Attendance.fetchEmployeesSettle (Attendance.fetchEmployeesStart sa).1 rl,
          (Attendance.fetchEmployeesStart sa).2) ∧
      (Attendance.fetchEmployeesStart sa).2 = [.call .employeeGetAll] ∧
      (Attendance.fetchEmployeesStart sa).1.loading = true ∧
      (Attendance.fetchEmployeesStart sa).1.error = none ∧
      Attendance.render (Attendance.fetchEmployeesStart sa).1 = .loading ∧
      (Attendance.step sa (.retry rl)).1.loading = false ∧
      (Attendance.step sa (.retry rl)).1.error =
        (match rl with
        | .resolved _ => none
        | .rejected err => some (notifiedText err "Failed to load employees")) ∧
      (Attendance.render (Attendance.step sa (.retry rl)).1).kind =
        (match rl with
        | .resolved _ => ViewKind.content
        | .rejected _ => ViewKind.errorView)) := by
  have hd := Dashboard.fetchDashboard_outcome sd rd
  have he := Employees.fetchEmployees_outcome se rl
  have ha := Attendance.attendance_fetchEmployees_outcome sa rl
  refine ⟨⟨rfl, rfl, rfl, rfl, rfl, rfl, hd.1, hd.2.1, hd.2.2⟩,
    ⟨rfl, ?_, rfl, rfl, rfl, rfl, he.1, he.2.1, he.2.2⟩,
    ⟨rfl, ?_, rfl, rfl, rfl, rfl, ha.1, ha.2.1, ha.2.2⟩⟩
  · cases rl <;> rfl
  · cases rl <;> rfl

/-! ## The scroll lock of the modal -/

namespace Modal

theorem rerender_overflow (id : Nat) (isOpen nextOpen onCloseChanged : Bool) (d : Document)
    (h : d.bodyOverflow = if isOpen then "hidden" else "") :
    (rerender id nextOpen (nextOpen != isOpen || onCloseChanged) d).bodyOverflow
      = if nextOpen then "hidden" else "" := by
  unfold rerender
  by_cases hdeps : (nextOpen != isOpen || onCloseChanged) = true
  · rw [if_pos hdeps]
    cases nextOpen <;> simp [effect, cleanup]
  · rw [if_neg hdeps]
    have hsame : nextOpen = isOpen := by
      cases nextOpen <;> cases isOpen <;> simp at hdeps ⊢
    rw [hsame]
    exact h

theorem renders_overflow (id : Nat) (later : List (Bool × Bool)) :
    ∀ (isOpen : Bool) (d : Document),
      d.bodyOverflow = (if isOpen then "hidden" else "") →
      (renders id isOpen d later).2.bodyOverflow
        = if (renders id isOpen d later).1 then "hidden" else "" := by
  induction later with
  | nil => intro isOpen d h; exact h
  | cons r rest ih =>
    intro isOpen d h
    obtain ⟨nextOpen, onCloseChanged⟩ := r
    exact ih nextOpen _ (rerender_overflow id isOpen nextOpen onCloseChanged d h)

/-- A single modal locks the scroll exactly while it is open, over its mount and any
later renders, and its unmount releases the lock. -/
theorem single_modal_overflow (id : Nat) (isOpen : Bool) (later : List (Bool × Bool)) :
    (mounted id isOpen later).2.bodyOverflow
      = (if (mounted id isOpen later).1 then "hidden" else "") ∧
    (cleanup id (mounted id isOpen later).2).bodyOverflow = "" := by
  refine ⟨?_, rfl⟩
  unfold mounted
  apply renders_overflow
  cases isOpen <;> simp [effect, Document.initial]

theorem foldl_cleanup_overflow (l : List (Nat × Bool)) :
    ∀ d : Document, d.bodyOverflow = "" →
      (l.foldl (fun d m => cleanup m.1 d) d).bodyOverflow = "" := by
  induction l with
  | nil => intro d h; exact h
  | cons m rest ih => intro d _; exact ih (cleanup m.1 d) rfl

theorem foldl_effect_overflow (g : Nat → Bool) (l : List (Nat × Bool)) :
    ∀ d : Document,
      (l.foldl (fun d m => effect m.1 (g m.1) d) d).bodyOverflow =
        if l.any (fun m => g m.1) then "hidden" else d.bodyOverflow := by
  induction l with
  | nil => intro d; rfl
  | cons m rest ih =>
    intro d
    rw [List.foldl_cons, ih]
    cases hg : g m.1 <;> cases hr : rest.any (fun m => g m.1) <;>
      simp [effect, hg, hr]

/-- When every mounted modal receives a new `onClose` in a re-render, as on the pages of
this repository, the commit leaves the scroll locked exactly when some modal is open. -/
theorem commit_all_refreshed_overflow (p : Page) (nextOpen : Nat → Bool)
    (h : p.modals ≠ []) :
    (commit p (fun id => (nextOpen id, true))).doc.bodyOverflow =
      if anyOpen (commit p (fun id => (nextOpen id, true))) then "hidden" else "" := by
  have hall : p.modals.filter (fun m => (nextOpen m.1 != m.2 || true)) = p.modals := by
    simp
  have hclean : (p.modals.foldl (fun d m => cleanup m.1 d) p.doc).bodyOverflow = "" := by
    cases hm : p.modals with
    | nil => exact absurd hm h
    | cons m rest => exact foldl_cleanup_overflow rest (cleanup m.1 p.doc) rfl
  simp only [commit, hall, foldl_effect_overflow nextOpen, hclean, anyOpen, List.any_map]
  rfl

theorem foldl_effect_own_overflow (l : List (Nat × Bool)) :
    ∀ d : Document,
      (l.foldl (fun d m => effect m.1 m.2 d) d).bodyOverflow =
        if l.any (fun m => m.2) then "hidden" else d.bodyOverflow := by
  induction l with
  | nil => intro d; rfl
  | cons m rest ih =>
    intro d
    rw [List.foldl_cons, ih]
    cases hg : m.2 <;> cases hr : rest.any (fun m => m.2) <;>
      simp [effect, hg, hr]

theorem pageStep_overflow (p : Page) (st : PageStep)
    (h : p.doc.bodyOverflow = if anyOpen p then "hidden" else "") :
    (pageStep p st).doc.bodyOverflow = if anyOpen (pageStep p st) then "hidden" else "" := by
  cases st with
  | mount modals =>
    simp only [pageStep, mountModals, foldl_effect_own_overflow, anyOpen, List.any_append, h]
    by_cases h1 : p.modals.any (fun m => m.2) = true <;>
      by_cases h2 : modals.any (fun m => m.2) = true <;> simp [h1, h2]
  | render nextOpen =>
    by_cases hm : p.modals = []
    · have hp : anyOpen p = false := by simp [anyOpen, hm]
      rw [hp] at h
      simp [pageStep, pageRender, commit, hm, anyOpen, h]
    · exact commit_all_refreshed_overflow p nextOpen hm
  | unmount =>
    by_cases hm : p.modals = []
    · have hp : anyOpen p = false := by simp [anyOpen, hm]
      rw [hp] at h
      simp [pageStep, unmountPage, hm, anyOpen, h]
    · have hclean : (p.modals.foldl (fun d m => cleanup m.1 d) p.doc).bodyOverflow = "" := by
        cases hl : p.modals with
        | nil => exact absurd hl hm
        | cons m rest => exact foldl_cleanup_overflow rest (cleanup m.1 p.doc) rfl
      simp [pageStep, unmountPage, anyOpen, hclean]

theorem runPage_overflow (steps : List PageStep) :
    ∀ p : Page, p.doc.bodyOverflow = (if anyOpen p then "hidden" else "") →
      (runPage p steps).doc.bodyOverflow = if anyOpen (runPage p steps) then "hidden" else "" := by
  induction steps with
  | nil => intro p h; exact h
  | cons st rest ih => intro p h; exact ih (pageStep p st) (pageStep_overflow p st h)

end Modal

/-- C21: the scroll lock follows the open modal.  For a single modal, over its mount and
any later renders, `document.body.style.overflow` is `hidden` exactly while it is open,
and its cleanup sets it back to the empty string.  For a page with any number of modals,
over every sequence of commits in which its modals mount, the page re-renders with new
`isOpen` values and a new `onClose` for each modal (as every page of this repository
does), or its modals unmount together, the overflow is `hidden` exactly while some modal
is open, and it is the empty string after the unmount.  On the Employees page, whatever
the two modals showed before, a render leaves the overflow `hidden` exactly when the add
modal or the delete confirmation is open; on the Attendance page, exactly when the mark
modal is open. -/
theorem modal_scroll_lock :
    (∀ (id : Nat) (isOpen : Bool) (later : List (Bool × Bool)),
      (Modal.mounted id isOpen later).2.bodyOverflow
        = (if (Modal.mounted id isOpen later).1 then "hidden" else "") ∧
      (Modal.cleanup id (Modal.mounted id isOpen later).2).bodyOverflow = "") ∧
    (∀ steps : List Modal.PageStep,
      (Modal.runPage Modal.Page.initial steps).doc.bodyOverflow
        = if Modal.anyOpen (Modal.runPage Modal.Page.initial steps) then "hidden" else "") ∧
    (∀ steps : List Modal.PageStep,
      (Modal.pageStep (Modal.runPage Modal.Page.initial steps) .unmount).doc.bodyOverflow = "") ∧
    (∀ s next : Employees.State,
      (Modal.pageRender (Modal.mountPage (Modal.employeesModals s))
          (Modal.employeesOpen next)).doc.bodyOverflow
        = if next.showAddModal || next.deleteTarget.isSome then "hidden" else "") ∧
    (∀ s next : Attendance.State,
      (Modal.pageRender (Modal.mountPage (Modal.attendanceModals s))
          (fun _ => next.showMarkModal)).doc.bodyOverflow
        = if next.showMarkModal then "hidden" else "") := by
  have hinit : Modal.Page.initial.doc.bodyOverflow
      = if Modal.anyOpen Modal.Page.initial then "hidden" else "" := rfl
  refine ⟨Modal.single_modal_overflow, fun steps => Modal.runPage_overflow steps _ hinit,
    ?_, ?_, ?_⟩
  · intro steps
    have h := Modal.pageStep_overflow _ Modal.PageStep.unmount
      (Modal.runPage_overflow steps _ hinit)
    rw [h]
    rfl
  · intro s next
    rw [Modal.pageRender, Modal.commit_all_refreshed_overflow _ _
      (by simp [Modal.mountPage, Modal.employeesModals])]
    simp [Modal.commit, Modal.anyOpen, Modal.mountPage, Modal.employeesModals,
      Modal.employeesOpen]
  · intro s next
    rw [Modal.pageRender, Modal.commit_all_refreshed_overflow _ _
      (by simp [Modal.mountPage, Modal.attendanceModals])]
    simp [Modal.commit, Modal.anyOpen, Modal.mountPage, Modal.attendanceModals]

/-! ## Selecting the blank option -/

/-- C25: `handleEmployeeChange` with the empty id issues nothing, empties `records`, sets
`summary` to `null`, empties both date inputs and the selection, and leaves every other
cell, `recordsLoading` among them, as it was. -/
theorem blank_selection_resets_view (s : Attendance.State)
    (recordsRes : Outcome (List AttendanceRecord)) (summaryRes : Outcome AttendanceSummary) :
    Attendance.handleEmployeeChange s "" recordsRes summaryRes =
      ({ s with selectedEmployee := "", dateFrom := "", dateTo := "", records := [],
                summary := none }, []) ∧
    (Attendance.handleEmployeeChange s "" recordsRes summaryRes).1.recordsLoading
      = s.recordsLoading ∧
    callsOf (Attendance.handleEmployeeChange s "" recordsRes summaryRes).2 = [] := by
  refine ⟨rfl, rfl, rfl⟩

/-! ## In-flight flags -/

theorem Employees.handleSubmit_submitting (s : Employees.State) (createRes : Outcome Unit)
    (listRes : Outcome (List Employee)) :
    (Employees.handleSubmit s createRes listRes).1.submitting =
      if Employees.offendingFields s.form = [] then false else s.submitting := by
  by_cases h : Employees.offendingFields s.form = []
  · have hk := Employees.validationErrors_keys_of_valid s.form h
    rw [if_pos h]
    cases createRes <;> cases listRes <;>
      simp [Employees.handleSubmit, Employees.validateForm, hk, Employees.fetchEmployees]
  · have hk : ¬ (Employees.validationErrors s.form).keys = [] := by
      rw [Employees.validationErrors_keys]
      intro hnil
      exact h (List.map_eq_nil_iff.1 hnil)
    rw [if_neg h]
    simp [Employees.handleSubmit, Employees.validateForm, hk]

theorem Attendance.handleMarkSubmit_submitting (s : Attendance.State) (markRes : Outcome Unit)
    (recordsRes : Outcome (List AttendanceRecord)) (summaryRes : Outcome AttendanceSummary) :
    (Attendance.handleMarkSubmit s markRes recordsRes summaryRes).1.submitting =
      if Attendance.emptyFields s.markForm = [] then false else s.submitting := by
  by_cases h : Attendance.emptyFields s.markForm = []
  · have hk : (Attendance.markValidationErrors s.markForm).keys = [] := by
      rw [Attendance.markValidationErrors_keys, h]; rfl
    rw [if_pos h]
    cases markRes with
    | rejected err => simp [Attendance.handleMarkSubmit, Attendance.validateMarkForm, hk]
    | resolved u => simp [Attendance.handleMarkSubmit, Attendance.validateMarkForm, hk]
  · have hk : ¬ (Attendance.markValidationErrors s.markForm).keys = [] := by
      rw [Attendance.markValidationErrors_keys]
      intro hnil
      exact h (List.map_eq_nil_iff.1 hnil)
    rw [if_neg h]
    simp [Attendance.handleMarkSubmit, Attendance.validateMarkForm, hk]

/-- C26: no in-flight flag stays set.  Whatever the outcome, `loading` is false after
`fetchDashboard` and after `fetchEmployees` of either page; `recordsLoading` is false
after `fetchRecords` with a non-empty id; `submitting` is false after `handleSubmit` of a
valid form and after `handleMarkSubmit` of a filled form; `deleting` is false after
`handleDelete` with a target.  On the early returns (empty id, invalid form, no target)
the flag keeps the value it had. -/
theorem flags_cleared_after_requests (sd : Dashboard.State) (rd : Outcome DashboardSummary)
    (se : Employees.State) (sa : Attendance.State) (rl : Outcome (List Employee))
    (ru : Outcome Unit) (rr : Outcome (List AttendanceRecord)) (rs : Outcome AttendanceSummary)
    (empId fromDate toDate : String) :
    (Dashboard.fetchDashboard sd rd).1.loading = false ∧
    (Employees.fetchEmployees se rl).1.loading = false ∧
    (Attendance.fetchEmployees sa rl).1.loading = false ∧
    (Attendance.fetchRecords sa empId fromDate toDate rr rs).1.recordsLoading =
      (if truthy empId then false else sa.recordsLoading) ∧
    (Employees.handleSubmit se ru rl).1.submitting =
      (if Employees.offendingFields se.form = [] then false else se.submitting) ∧
    (Attendance.handleMarkSubmit sa ru rr rs).1.submitting =
      (if Attendance.emptyFields sa.markForm = [] then false else sa.submitting) ∧
    (Employees.handleDelete se ru rl).1.deleting =
      (match se.deleteTarget with
      | some _ => false
      | none => se.deleting) := by
  refine ⟨?_, ?_, ?_, ?_, Employees.handleSubmit_submitting se ru rl,
    Attendance.handleMarkSubmit_submitting sa ru rr rs, ?_⟩
  · cases rd <;> rfl
  · cases rl <;> rfl
  · cases rl <;> rfl
  · cases h : truthy empId
    · simp [Attendance.fetchRecords, h]
    · rw [Attendance.fetchRecords_of_truthy sa empId fromDate toDate rr rs h]
      cases rr <;> cases rs <;> rfl
  · cases h : se.deleteTarget with
    | none => simp [Employees.handleDelete, h]
    | some t =>
      cases ru <;> cases rl <;> simp [Employees.handleDelete, h, Employees.fetchEmployees]

/-! ## The shape of an accepted email -/

theorem takeWhile_append_stop (p : Char → Bool) (a r : List Char) (x : Char)
    (ha : ∀ y ∈ a, p y = true) (hx : p x = false) : (a ++ x :: r).takeWhile p = a := by
  induction a with
  | nil => simp [List.takeWhile, hx]
  | cons y ys ih =>
    have hy : p y = true := ha y (List.mem_cons_self y ys)
    simp only [List.cons_append, List.takeWhile_cons, hy, if_true]
    rw [ih (fun z hz => ha z (List.mem_cons_of_mem y hz))]

theorem dropWhile_append_stop (p : Char → Bool) (a r : List Char) (x : Char)
    (ha : ∀ y ∈ a, p y = true) (hx : p x = false) : (a ++ x :: r).dropWhile p = x :: r := by
  induction a with
  | nil => simp [List.dropWhile, hx]
  | cons y ys ih =>
    have hy : p y = true := ha y (List.mem_cons_self y ys)
    simp only [List.cons_append, List.dropWhile_cons, hy, if_true]
    exact ih (fun z hz => ha z (List.mem_cons_of_mem y hz))

theorem dropWhile_head_stop (p : Char → Bool) (l : List Char) (x : Char) (r : List Char)
    (h : l.dropWhile p = x :: r) : p x = false := by
  induction l with
  | nil => simp at h
  | cons y ys ih =>
    by_cases hy : p y = true
    · rw [List.dropWhile_cons_of_pos hy] at h
      exact ih h
    · rw [List.dropWhile_cons_of_neg hy] at h
      have hxy : y = x := by
        have := congrArg List.head? h
        simpa using this
      rw [← hxy]
      simpa using hy

theorem mem_takeWhile_holds (p : Char → Bool) (l : List Char) :
    ∀ y ∈ l.takeWhile p, p y = true := by
  induction l with
  | nil => intro y hy; simp at hy
  | cons z zs ih =>
    intro y hy
    by_cases hz : p z = true
    · rw [List.takeWhile_cons_of_pos hz] at hy
      rcases List.mem_cons.1 hy with rfl | hy
      · exact hz
      · exact ih y hy
    · rw [List.takeWhile_cons_of_neg hz] at hy
      simp at hy

theorem notSpaceOrAt_iff (x : Char) :
    notSpaceOrAt x = true ↔ isJsWhitespace x = false ∧ x ≠ '@' := by
  unfold notSpaceOrAt
  cases isJsWhitespace x <;> simp

theorem hasInnerDot_append (b c : List Char) (hb : b ≠ []) (hc : c ≠ []) :
    hasInnerDot (b ++ '.' :: c) = true := by
  cases b with
  | nil => exact absurd rfl hb
  | cons y ys =>
    unfold hasInnerDot
    rw [List.elem_iff]
    simp only [List.cons_append, List.drop_succ_cons, List.drop_zero]
    rw [List.dropLast_append_of_ne_nil _ (by simp), List.dropLast_cons_of_ne_nil hc]
    simp

theorem hasInnerDot_split (r : List Char) (h : hasInnerDot r = true) :
    ∃ b c, r = b ++ '.' :: c ∧ b ≠ [] ∧ c ≠ [] := by
  unfold hasInnerDot at h
  rw [List.elem_iff] at h
  cases r with
  | nil => simp at h
  | cons y r1 =>
    simp only [List.drop_succ_cons, List.drop_zero] at h
    have hne : r1 ≠ [] := by
      intro hr
      rw [hr] at h
      simp at h
    obtain ⟨u, v, huv⟩ := List.append_of_mem h
    refine ⟨y :: u, v ++ [r1.getLast hne], ?_, by simp, by simp⟩
    have hlast := List.dropLast_append_getLast hne
    rw [huv] at hlast
    simp only [List.append_assoc, List.cons_append] at hlast
    show y :: r1 = y :: (u ++ '.' :: (v ++ [r1.getLast hne]))
    rw [hlast]

theorem claimedEmailShape_of_emailShape (s : String) (h : EmailShape s.data) :
    claimedEmailShape s = true := by
  obtain ⟨a, b, c, hl, hane, hbne, hcne, hap, hbp, hcp⟩ := h
  have hnoat : ∀ l : List Char, (∀ x ∈ l, notSpaceOrAt x = true) → l.count '@' = 0 := by
    intro l hlp
    rw [List.count_eq_zero]
    intro hmem
    exact ((notSpaceOrAt_iff '@').1 (hlp '@' hmem)).2 rfl
  have hstop : (fun c : Char => c != '@') '@' = false := by decide
  have hago : ∀ y ∈ a, (fun c : Char => c != '@') y = true := by
    intro y hy
    simpa using ((notSpaceOrAt_iff y).1 (hap y hy)).2
  unfold claimedEmailShape
  rw [hl]
  simp only [Bool.and_eq_true, beq_iff_eq, List.all_eq_true, Bool.not_eq_true']
  refine ⟨⟨⟨?_, ?_⟩, ?_⟩, ?_⟩
  · have h1 := hnoat a hap
    have h2 := hnoat b hbp
    have h3 := hnoat c hcp
    simp [List.count_append, List.count_cons, h1, h2, h3]
  · intro x hx
    simp only [List.mem_append, List.mem_cons] at hx
    rcases hx with hx | rfl | hx | rfl | hx
    · exact ((notSpaceOrAt_iff x).1 (hap x hx)).1
    · decide
    · exact ((notSpaceOrAt_iff x).1 (hbp x hx)).1
    · decide
    · exact ((notSpaceOrAt_iff x).1 (hcp x hx)).1
  · unfold localPart
    rw [takeWhile_append_stop _ a _ '@' hago hstop]
    cases a with
    | nil => exact absurd rfl hane
    | cons y ys => rfl
  · unfold afterAt
    rw [dropWhile_append_stop _ a _ '@' hago hstop]
    exact hasInnerDot_append b c hbne hcne

theorem emailShape_of_claimedEmailShape (s : String) (h : claimedEmailShape s = true) :
    EmailShape s.data := by
  unfold claimedEmailShape at h
  simp only [Bool.and_eq_true, beq_iff_eq, List.all_eq_true, Bool.not_eq_true'] at h
  obtain ⟨⟨⟨hcount, hws⟩, hlocal⟩, hdot⟩ := h
  have hsplit := List.takeWhile_append_dropWhile (fun c : Char => c != '@') s.data
  obtain ⟨b, c, hr, hbne, hcne⟩ := hasInnerDot_split _ hdot
  cases hdw : s.data.dropWhile (fun c : Char => c != '@') with
  | nil =>
    unfold afterAt at hr
    rw [hdw] at hr
    cases b <;> simp at hr
  | cons x r =>
    have hx : x = '@' := by
      have := dropWhile_head_stop _ _ x r hdw
      simpa using this
    subst hx
    have hr2 : r = b ++ '.' :: c := by
      unfold afterAt at hr
      rw [hdw] at hr
      simpa using hr
    have hl : s.data = localPart s.data ++ '@' :: (b ++ '.' :: c) := by
      unfold localPart
      rw [← hr2, ← hdw, hsplit]
    have hlocalAt : ∀ y ∈ localPart s.data, y ≠ '@' := by
      intro y hy
      have := mem_takeWhile_holds (fun c : Char => c != '@') s.data y hy
      simpa using this
    have hcountLocal : (localPart s.data).count '@' = 0 := by
      rw [List.count_eq_zero]
      intro hmem
      exact hlocalAt '@' hmem rfl
    have hcount2 : (b ++ '.' :: c).count '@' = 0 := by
      have := hcount
      rw [hl, List.count_append, List.count_cons, hcountLocal] at this
      simp at this
      simpa [List.count_append, List.count_cons] using this
    have hnoat : ∀ y ∈ b ++ '.' :: c, y ≠ '@' := by
      intro y hy hya
      rw [hya] at hy
      exact (List.count_eq_zero.1 hcount2) hy
    have hwsl : ∀ y ∈ localPart s.data ++ '@' :: (b ++ '.' :: c), isJsWhitespace y = false := by
      intro y hy
      rw [← hl] at hy
      exact hws y hy
    refine ⟨localPart s.data, b, c, hl, ?_, hbne, hcne, ?_, ?_, ?_⟩
    · intro hnil
      rw [hnil] at hlocal
      simp at hlocal
    · intro y hy
      exact (notSpaceOrAt_iff y).2 ⟨hwsl y (by simp [hy]), hlocalAt y hy⟩
    · intro y hy
      exact (notSpaceOrAt_iff y).2 ⟨hwsl y (by simp [hy]), hnoat y (by simp [hy])⟩
    · intro y hy
      exact (notSpaceOrAt_iff y).2 ⟨hwsl y (by simp [hy]), hnoat y (by simp [hy])⟩

theorem emailRegexTest_eq_claimed (s : String) : emailRegexTest s = claimedEmailShape s := by
  rw [Bool.eq_iff_iff, emailRegexTest_iff]
  exact ⟨claimedEmailShape_of_emailShape s, emailShape_of_claimedEmailShape s⟩

theorem Employees.email_error_absent_iff (form : Employee) :
    (Employees.validationErrors form).get "email" = none ↔ emailRegexTest form.email = true := by
  have hb : emailRegexTest form.email = true → isBlank form.email = false :=
    isBlank_eq_false_of_emailRegexTest form.email
  simp only [Employees.validationErrors, truthy_trim_eq_not_isBlank, Bool.not_not]
  cases h1 : isBlank form.employee_id <;> cases h2 : isBlank form.full_name <;>
    cases h3 : isBlank form.email <;> cases h4 : emailRegexTest form.email <;>
    cases h5 : isBlank form.department <;>
    simp_all [JsObject.assign, JsObject.get]

/-- C22: `validateForm` records no email error exactly when the email has the
`local@domain.tld` shape of the specification: exactly one `@`, no whitespace character,
at least one character before the `@`, and after the `@` a `.` that is neither the
first nor the last character; the pattern test and that shape agree on every string. -/
theorem accepted_email_shape (form : Employee) :
    ((Employees.validationErrors form).get "email" = none ↔
      claimedEmailShape form.email = true) ∧
    emailRegexTest form.email = claimedEmailShape form.email := by
  refine ⟨?_, emailRegexTest_eq_claimed form.email⟩
  rw [Employees.email_error_absent_iff, emailRegexTest_eq_claimed]

/-! ## The create request carries the form as entered -/

namespace Employees

theorem validationErrors_get_of_blank (form : Employee) (f : Field)
    (h : isBlank (f.value form) = true) :
    (validationErrors form).get f.key = some f.requiredMessage := by
  simp only [validationErrors, truthy_trim_eq_not_isBlank, Bool.not_not]
  cases f <;> simp only [Field.value] at h <;>
    cases h1 : isBlank form.employee_id <;> cases h2 : isBlank form.full_name <;>
    cases h3 : isBlank form.email <;> cases h4 : emailRegexTest form.email <;>
    cases h5 : isBlank form.department <;>
    simp_all [JsObject.assign, JsObject.get, Field.key, Field.requiredMessage]

theorem createCalls_handleSubmit_of_ok (s : State) (createRes : Outcome Unit)
    (listRes : Outcome (List Employee)) (hok : (validateForm s).2 = true) :
    createCalls (handleSubmit s createRes listRes).2 = [.employeeCreate s.form] := by
  have hkeys := validationErrors_keys_of_valid s.form ((validateForm_ok_iff s).1 hok)
  cases createRes <;> cases listRes <;>
    simp [handleSubmit, validateForm, hkeys, createCalls, callsOf, fetchEmployees,
      ApiCall.isCreate]

/-- C23: `validateForm` reports a field as required when its value is blank, that is
empty after trimming; and for a form that passes validation `handleSubmit` issues one
create call whose argument, the body of the POST request, is the form itself, every
field as entered, outer whitespace included. -/
theorem create_body_as_entered (form : Employee) (s : State) (createRes : Outcome Unit)
    (listRes : Outcome (List Employee)) (hok : (validateForm s).2 = true) :
    (∀ f : Field, isBlank (f.value form) = true →
      (validationErrors form).get f.key = some f.requiredMessage) ∧
    createCalls (handleSubmit s createRes listRes).2 = [.employeeCreate s.form] ∧
    (ApiCall.employeeCreate s.form).request.data = some (.employee s.form) ∧
    (∀ f : Field, isBlank (f.value s.form) = false) := by
  refine ⟨fun f h => validationErrors_get_of_blank form f h,
    createCalls_handleSubmit_of_ok s createRes listRes hok, rfl, ?_⟩
  intro f
  have hnil := (validateForm_ok_iff s).1 hok
  cases hb : isBlank (f.value s.form)
  · rfl
  · have hmem : f ∈ offendingFields s.form := by
      rw [mem_offendingFields]
      cases f <;> simp_all [offends, Field.value]
    rw [hnil] at hmem
    cases hmem

/-- C23 at a form with padded identifier, name and department: the padding is sent. -/
theorem create_body_as_entered_witness :
    (validateForm (sampleState samplePadded)).2 = true ∧
    createCalls (handleSubmit (sampleState samplePadded) (.resolved ()) (.resolved [jane])).2 =
      [.employeeCreate
        { employee_id := " EMP001 ", full_name := "  Jane Doe", email := "jane@co.com",
          department := "Engineering " }] ∧
    (validationErrors sampleSpaceId).get "employee_id" = some "Employee ID is required" :=
  have h := create_body_as_entered sampleSpaceId (sampleState samplePadded) (.resolved ())
    (.resolved [jane]) (by decide)
  ⟨by decide, h.2.1, h.1 .employee_id (by decide)⟩

end Employees

/-! ## Identifiers in request paths -/

theorem splitSlash_mem (l : List Char) :
    ∀ seg ∈ splitSlash l, ∀ x ∈ seg, x ≠ '/' ∧ x ∈ l := by
  induction l with
  | nil =>
    intro seg hseg x hx
    simp [splitSlash] at hseg
    rw [hseg] at hx
    cases hx
  | cons c cs ih =>
    intro seg hseg x hx
    by_cases hc : c = '/'
    · simp only [splitSlash, hc, beq_self_eq_true, if_true, List.mem_cons] at hseg
      rcases hseg with rfl | hseg
      · cases hx
      · exact ⟨(ih seg hseg x hx).1, List.mem_cons_of_mem _ (ih seg hseg x hx).2⟩
    · have hcb : (c == '/') = false := by simpa using hc
      simp only [splitSlash, hcb, Bool.false_eq_true, if_false] at hseg
      cases hs : splitSlash cs with
      | nil =>
        rw [hs] at hseg
        simp only [List.mem_singleton] at hseg
        rw [hseg] at hx
        have hxc : x = c := by simpa using hx
        rw [hxc]
        exact ⟨hc, List.mem_cons_self c cs⟩
      | cons seg0 rest =>
        rw [hs] at hseg
        simp only [List.mem_cons] at hseg
        rcases hseg with rfl | hseg
        · rcases List.mem_cons.1 hx with rfl | hx0
          · exact ⟨hc, List.mem_cons_self _ cs⟩
          · have := ih seg0 (by rw [hs]; exact List.mem_cons_self _ _) x hx0
            exact ⟨this.1, List.mem_cons_of_mem _ this.2⟩
        · have := ih seg (by rw [hs]; exact List.mem_cons_of_mem _ hseg) x hx
          exact ⟨this.1, List.mem_cons_of_mem _ this.2⟩

theorem pathSegments_no_reserved (url : String) (seg : List Char)
    (hseg : seg ∈ pathSegments url) :
    seg.any (fun c => c == '/' || c == '?' || c == '#') = false := by
  have hmem : seg ∈ splitSlash (pathOf url.data) := List.mem_of_mem_tail hseg
  rw [List.any_eq_false]
  intro x hx
  have h1 := splitSlash_mem _ seg hmem x hx
  have h2 := mem_takeWhile_holds (fun c => c != '?' && c != '#') url.data x h1.2
  have h3 : x ≠ '?' ∧ x ≠ '#' := by simpa using h2
  simp [h1.1, h3.1, h3.2]

theorem hasReserved_of_segment (url : String) (id : String)
    (h : id.data ∈ pathSegments url) : hasReserved id = false :=
  pathSegments_no_reserved url id.data h

/-- C24: the identifier is spliced into the path unchanged: `getById` and `delete` use
`/employees/` followed by the id, the attendance functions `/employees/` + id +
`/attendance`, with `/summary` appended for the summary; and whenever the path of one of
these requests splits into the intended segments, with the id as one whole segment, the
id contains none of `/`, `?`, `#`. -/
theorem identifier_spliced_verbatim (id : String) (params : JsObject) (data : MarkData) :
    (employeeAPI.getById id).url = "/employees/" ++ id ∧
    (employeeAPI.delete id).url = "/employees/" ++ id ∧
    (attendanceAPI.getByEmployee id params).url = "/employees/" ++ id ++ "/attendance" ∧
    (attendanceAPI.mark id data).url = "/employees/" ++ id ++ "/attendance" ∧
    (attendanceAPI.getSummary id).url = "/employees/" ++ id ++ "/attendance/summary" ∧
    (pathSegments (employeeAPI.getById id).url = ["employees".data, id.data] →
      hasReserved id = false) ∧
    (pathSegments (employeeAPI.delete id).url = ["employees".data, id.data] →
      hasReserved id = false) ∧
    (pathSegments (attendanceAPI.getByEmployee id params).url =
        ["employees".data, id.data, "attendance".data] → hasReserved id = false) ∧
    (pathSegments (attendanceAPI.mark id data).url =
        ["employees".data, id.data, "attendance".data] → hasReserved id = false) ∧
    (pathSegments (attendanceAPI.getSummary id).url =
        ["employees".data, id.data, "attendance".data, "summary".data] →
      hasReserved id = false) := by
  refine ⟨rfl, rfl, rfl, rfl, rfl, ?_, ?_, ?_, ?_, ?_⟩ <;>
    intro h <;>
    exact hasReserved_of_segment _ id (by rw [h]; simp)

/-- C24 at the id `EMP001`, and what the paths of the ids `a/b` and `a?b` split into. -/
theorem identifier_spliced_verbatim_witness :
    pathSegments (employeeAPI.getById "EMP001").url = ["employees".data, "EMP001".data] ∧
    hasReserved "EMP001" = false ∧
    pathSegments (employeeAPI.getById "a/b").url = ["employees".data, "a".data, "b".data] ∧
    pathSegments (employeeAPI.getById "a?b").url = ["employees".data, "a".data] :=
  ⟨by decide,
    (identifier_spliced_verbatim "EMP001" [] { date := "2024-01-10", status := "Present" }).2.2.2.2.2.1
      (by decide),
    by decide, by decide⟩

end HRMS
